import Mathlib

/-!
Verification of the PuLP solver-backend adapters for OR-Tools CP-SAT
(`src/pulp/apis/cpsat_api.py`, class `CPSAT_PY`) and Z3
(`src/pulp/apis/z3_api.py`, classes `Z3Model` and `Z3_PY`).

Shallow embedding conventions:
* Numeric data (coefficients, constants, bounds, solution values) is modelled
  with exact integers; none of the verified properties depends on fractional
  values.
* The generic model (`lp`) is the read/write surface the adapters touch:
  `lp.variables()`, `lp.constraints.values()`, `lp.objective`, `lp.sense`,
  plus the attributes the adapters assign onto the problem object
  (`solverModel`, `modelVars`, `cpSatSolver`, `solverStatus`).
* The external engines (CP-SAT's `CpSolver.Solve`, Z3's `Solver.check`) are
  abstracted by an oracle argument carrying the raw outcome (raw status /
  check result, unknown-reason, and a variable assignment); everything that
  is adapter code is translated statement by statement from the source.
* Python exceptions are modelled by an `Option String` / `Except String`
  error channel; mutations performed before an exception is raised persist
  in the returned state, exactly as attribute mutations do in Python.
* Python `dict`s keyed by variable name are modelled as association lists
  (`alookup` returns the first match; the generic model's invariant is that
  variable names are unique, so this coincides with `dict` lookup).
-/

/-- Decidable equality for `Except`, used to evaluate the embedding on
concrete inputs. -/
instance {ε α : Type} [DecidableEq ε] [DecidableEq α] :
    DecidableEq (Except ε α) := fun x y =>
  match x, y with
  | .error a, .error b => decidable_of_iff (a = b) (by simp)
  | .ok a, .ok b => decidable_of_iff (a = b) (by simp)
  | .error _, .ok _ => isFalse (by simp)
  | .ok _, .error _ => isFalse (by simp)

/-! ### Constants from `pulp.constants` -/

def LpStatusNotSolved : Int := 0

def LpStatusOptimal : Int := 1

def LpStatusInfeasible : Int := -1

def LpStatusUnbounded : Int := -2

def LpStatusUndefined : Int := -3

def LpMinimize : Int := 1

def LpMaximize : Int := -1

def LpConstraintEQ : Int := 0

def LpConstraintLE : Int := -1

def LpConstraintGE : Int := 1

def LpContinuous : String := "Continuous"

def LpInteger : String := "Integer"

/-! ### The Generic Model View consumed by the adapters -/

/-- A PuLP `LpVariable` as the adapters read and write it: name, category
string (`var.cat`), optional bounds (`None` bounds are `none`), the mutable
solution slot `varValue` and the change marker `modified`. -/
structure LpVariable where
  name : String
  cat : String
  lowBound : Option Int
  upBound : Option Int
  varValue : Option Int
  modified : Bool
deriving DecidableEq

/-- A PuLP `LpConstraint` as the adapters read it: the ordered coefficient
items `(variable name, coefficient)`, the constant offset, the sense
(one of `LpConstraintEQ/LE/GE`), and the change marker the adapters write
(the source assigns `constraint.modifier = False`). -/
structure LpConstraint where
  terms : List (String × Int)
  constant : Int
  sense : Int
  modifier : Bool
deriving DecidableEq

/-- The read-only generic model data: `lp.variables()`,
`lp.constraints.values()` (in order), `lp.objective` items and `lp.sense`. -/
structure LpData where
  vars : List LpVariable
  constraints : List LpConstraint
  objective : List (String × Int)
  sense : Int
deriving DecidableEq

/-- First-match association-list lookup, modelling Python `dict` access for
name-keyed maps (names are unique in a well-formed model). -/
def alookup {β : Type} (k : String) : List (String × β) → Option β
  | [] => none
  | p :: rest => if p.1 = k then some p.2 else alookup k rest

/-! ### CP-SAT native model (`cp_model` surface used by `CPSAT_PY`) -/

/-- The five raw statuses `cp_model.CpSolver.Solve` can return. -/
inductive CpRaw
  | UNKNOWN
  | MODEL_INVALID
  | FEASIBLE
  | INFEASIBLE
  | OPTIMAL
deriving DecidableEq

/-- Comparison operator of a native linear constraint. -/
inductive LinRel
  | eq
  | le
  | ge
deriving DecidableEq

/-- A native CP-SAT linear constraint `Σ coeff·handle ⋈ rhs`, as produced by
`buildConstraint` (`expr == rhs`, `expr <= rhs`, `expr >= rhs`). -/
structure CpConstraint where
  expr : List (Int × String)
  rel : LinRel
  rhs : Int
deriving DecidableEq

/-- The native `cp_model.CpModel` surface used by the adapter: variables
registered through `NewIntVar(lb, ub, name)`, constraints added through
`Add`, and the objective installed through `Maximize`/`Minimize`
(`true` means maximize). -/
structure CpModel where
  intVars : List (String × Int × Int)
  constraints : List CpConstraint
  objective : Option (Bool × List (Int × String))
deriving DecidableEq

/-- The problem object during a CP-SAT solve transaction: the generic data
plus the attributes `CPSAT_PY` assigns onto `lp` (`lp.solverModel`,
`lp.modelVars`, `lp.cpSatSolver`, `lp.solverStatus`). The solver object is
represented by the assignment it would report through `Value`. -/
structure CpState where
  data : LpData
  solverModel : Option CpModel
  modelVars : Option (List (String × String))
  cpSatSolver : Option (List (String × Int))
  solverStatus : Option CpRaw
deriving DecidableEq

/-- Raw outcome of one `CpSolver.Solve` call (external engine, abstracted):
the returned status and the assignment `Value` reads from. -/
structure CpOracle where
  raw : CpRaw
  assignment : List (String × Int)
deriving DecidableEq

/-- `CPSAT_PY.isSatProblem`: the objective's variable names minus
`{"__dummy"}` form an empty set. -/
def isSatProblem (d : LpData) : Bool :=
  (d.objective.map Prod.fst).all (· = "__dummy")

/-- The variable-creation loop of `CPSAT_PY.buildSolverModel`: integer
variables go through `NewIntVar(var.lowBound, var.upBound, var.name)` and are
recorded in `lp.modelVars[var.name]`; continuous variables are rejected
unless named `__dummy` (which is skipped); any other category is rejected.
`NewIntVar` is a native call that requires concrete integer bounds: passing a
Python `None` bound raises a `TypeError` inside OR-Tools (modelled by the
error case on an absent bound). -/
def cpsatAddVars : List LpVariable → CpModel → List (String × String) →
    CpModel × List (String × String) × Option String
  | [], m, mv => (m, mv, none)
  | v :: rest, m, mv =>
    if v.cat = LpInteger then
      match v.lowBound, v.upBound with
      | some lb, some ub =>
          cpsatAddVars rest
            { m with intVars := m.intVars ++ [(v.name, lb, ub)] }
            (mv ++ [(v.name, v.name)])
      | _, _ => (m, mv, some "TypeError: NewIntVar requires integer bounds")
    else if v.cat = LpContinuous then
      if v.name ≠ "__dummy" then
        (m, mv, some "CPSAT_PY: Continuous variables are not supported")
      else
        cpsatAddVars rest m mv
    else
      (m, mv, some ("CPSAT_PY: Variable type " ++ v.cat ++ " not supported"))

/-- `CPSAT_PY.buildLinearExpr`: for each `(v, coefficient)` item append
`coefficient * lp.modelVars[v.name]`; a missing key raises `KeyError`.
The native expression is the list of `(coefficient, handle)` terms whose sum
the native model takes. -/
def cpsatBuildLinearExpr (modelVars : List (String × String)) :
    List (String × Int) → Except String (List (Int × String))
  | [] => .ok []
  | (n, coeff) :: rest =>
    match alookup n modelVars with
    | none => .error ("KeyError: " ++ n)
    | some h =>
      match cpsatBuildLinearExpr modelVars rest with
      | .error e => .error e
      | .ok es => .ok ((coeff, h) :: es)

/-- `CPSAT_PY.buildConstraint`: build the linear expression, set
`rhs = -constraint.constant`, and compare with `==`, `<=` or (the `else`
branch) `>=` according to the sense. -/
def cpsatBuildConstraint (modelVars : List (String × String))
    (c : LpConstraint) : Except String CpConstraint :=
  match cpsatBuildLinearExpr modelVars c.terms with
  | .error e => .error e
  | .ok lhs =>
    let rhs := -c.constant
    if c.sense = LpConstraintEQ then .ok ⟨lhs, .eq, rhs⟩
    else if c.sense = LpConstraintLE then .ok ⟨lhs, .le, rhs⟩
    else .ok ⟨lhs, .ge, rhs⟩

/-- The constraint loop of `CPSAT_PY.buildSolverModel`:
`lp.solverModel.Add(self.buildConstraint(lp, constraint))` in order. -/
def cpsatAddConstraints (modelVars : List (String × String)) :
    List LpConstraint → CpModel → CpModel × Option String
  | [], m => (m, none)
  | c :: rest, m =>
    match cpsatBuildConstraint modelVars c with
    | .error e => (m, some e)
    | .ok nc =>
        cpsatAddConstraints modelVars rest
          { m with constraints := m.constraints ++ [nc] }

/-- The computation performed by `CPSAT_PY.buildSolverModel` on the generic
data: create the variables, add the constraints, and set the objective
(`Maximize` when `lp.sense == LpMaximize`, else `Minimize`) unless
`isSatProblem(lp)` holds. Returns the (possibly partial, when an exception
was raised) native model, the `modelVars` dictionary, and the error. -/
def cpsatBuildCore (d : LpData) :
    CpModel × List (String × String) × Option String :=
  let m0 : CpModel := ⟨[], [], none⟩
  match cpsatAddVars d.vars m0 [] with
  | (m1, mv, some e) => (m1, mv, some e)
  | (m1, mv, none) =>
    match cpsatAddConstraints mv d.constraints m1 with
    | (m2, some e) => (m2, mv, some e)
    | (m2, none) =>
      if isSatProblem d then (m2, mv, none)
      else
        match cpsatBuildLinearExpr mv d.objective with
        | .error e => (m2, mv, some e)
        | .ok expr =>
          ({ m2 with objective := some (d.sense = LpMaximize, expr) },
           mv, none)

/-- `CPSAT_PY.buildSolverModel`: assign a fresh `CpModel` and an empty
`modelVars` dictionary onto `lp` and run the build; since both attributes
are assigned before the loops, every exit — normal or exceptional — leaves
the (possibly partial) native model and dictionary attached to `lp`. -/
def cpsatBuildSolverModel (st : CpState) : CpState × Option String :=
  let r := cpsatBuildCore st.data
  ({ st with solverModel := some r.1, modelVars := some r.2.1 }, r.2.2)

/-- `CPSAT_PY.callSolver`: create a fresh `CpSolver`, attach it as
`lp.cpSatSolver`, and store `solver.Solve(lp.solverModel)` (abstracted by
the oracle) into `lp.solverStatus`, overwriting any previous values. -/
def cpsatCallSolver (oracle : CpOracle) (st : CpState) : CpState :=
  { st with cpSatSolver := some oracle.assignment,
            solverStatus := some oracle.raw }

/-- `CpSolver.Value` on a handle: the engine reports a value for every
variable of the model it solved; the oracle assignment is read first-match
(0 for a handle the oracle does not mention). -/
def cpValue (assign : List (String × Int)) (h : String) : Int :=
  (alookup h assign).getD 0

/-- The value-writing loop inside `CPSAT_PY.findSolutionValues`: for each
variable whose name is not `__dummy`, assign
`var.varValue = lp.cpSatSolver.Value(lp.modelVars[var.name])`. A missing
`modelVars` key raises `KeyError`, keeping the writes already performed. -/
def cpsatWriteValues (assign : List (String × Int))
    (mv : List (String × String)) :
    List LpVariable → List LpVariable × Option String
  | [] => ([], none)
  | v :: rest =>
    if v.name = "__dummy" then
      let (r, e) := cpsatWriteValues assign mv rest
      (v :: r, e)
    else
      match alookup v.name mv with
      | none => (v :: rest, some ("KeyError: " ++ v.name))
      | some h =>
        let (r, e) := cpsatWriteValues assign mv rest
        ({ v with varValue := some (cpValue assign h) } :: r, e)

/-- The `statusMap` dictionary of `CPSAT_PY.findSolutionValues` (total: the
five raw statuses are exactly its keys). -/
def cpsatStatusMap : CpRaw → Int
  | .FEASIBLE => LpStatusOptimal
  | .INFEASIBLE => LpStatusInfeasible
  | .OPTIMAL => LpStatusOptimal
  | .MODEL_INVALID => LpStatusUndefined
  | .UNKNOWN => LpStatusUndefined

/-- `CPSAT_PY.findSolutionValues`: when `lp.solverStatus == OPTIMAL`, write
the solved values of all non-dummy variables, then return
`statusMap[lp.solverStatus]`. Accessing attributes that were never assigned
raises (error cases; unreachable inside a well-formed transaction). -/
def cpsatFindSolutionValues (st : CpState) : CpState × Except String Int :=
  match st.solverStatus with
  | none => (st, .error "AttributeError: solverStatus")
  | some raw =>
    if raw = CpRaw.OPTIMAL then
      match st.modelVars, st.cpSatSolver with
      | some mv, some assign =>
        let (vs, e) := cpsatWriteValues assign mv st.data.vars
        let st1 := { st with data := { st.data with vars := vs } }
        match e with
        | some err => (st1, .error err)
        | none => (st1, .ok (cpsatStatusMap raw))
      | _, _ => (st, .error "AttributeError: modelVars or cpSatSolver")
    else (st, .ok (cpsatStatusMap raw))

/-- `CPSAT_PY.actualSolve`: build, call the solver, map the result, then
clear every variable's `modified` flag and every constraint's change marker,
and return the mapped status. An exception anywhere propagates, keeping the
mutations already performed. -/
def cpsatActualSolve (oracle : CpOracle) (st : CpState) :
    CpState × Except String Int :=
  match cpsatBuildSolverModel st with
  | (st1, some e) => (st1, .error e)
  | (st1, none) =>
    match cpsatFindSolutionValues (cpsatCallSolver oracle st1) with
    | (st3, .error e) => (st3, .error e)
    | (st3, .ok s) =>
      ({ st3 with data := { st3.data with
          vars := st3.data.vars.map (fun v => { v with modified := false }),
          constraints := st3.data.constraints.map
            (fun c => { c with modifier := false }) } }, .ok s)

/-! ### Z3 native model (`z3` surface used by `Z3Model` / `Z3_PY`) -/

/-- A Z3 variable created by `z3.Int(name)` or `z3.Real(name)`. -/
inductive Z3Var
  | intVar (name : String)
  | realVar (name : String)
deriving DecidableEq

/-- `decl().name()` of a Z3 variable. -/
def Z3Var.name : Z3Var → String
  | .intVar n => n
  | .realVar n => n

/-- A constraint handed to `Z3Model.addConstraint`: either a linear
comparison `Σ coeff·var ⋈ rhs` built from a generic constraint, or one of
the two bound constraints `z3Var >= lowBound` / `z3Var <= upBound`. -/
inductive Z3Constraint
  | cmp (lhs : List (Int × String)) (rel : LinRel) (rhs : Int)
  | lower (v : String) (b : Int)
  | upper (v : String) (b : Int)
deriving DecidableEq

/-- The `z3.Solver` handle as `Z3Model` uses it: the options set by
`getSolver`, the constraints added before `check`, and the string
`reason_unknown()` reports after `check` (external engine, from the
oracle). -/
structure Z3SolverHandle where
  timeoutOpt : Option Int
  logOpt : Option String
  asserted : List Z3Constraint
  reason : String
deriving DecidableEq

/-- The result of `z3.Solver.check()`; `status.r > 0` holds exactly for
`sat`. -/
inductive Z3Res
  | sat
  | unsat
  | unknown
deriving DecidableEq

/-- Raw outcome of one `Solver.check()` call (external engine, abstracted):
the check result, the `reason_unknown()` string, and the assignment the
Z3 model object would report. -/
structure Z3Oracle where
  res : Z3Res
  reason : String
  assignment : List (String × Int)
deriving DecidableEq

/-- The `Z3Model` class: constraint list, name-keyed variable dictionary,
the solver handle and model (both `None` until `solve`), and the
configuration stored by `__init__`. The solved model is represented by the
assignment it reports. -/
structure Z3Model where
  constraints : List Z3Constraint
  varTable : List (String × Z3Var)
  solver : Option Z3SolverHandle
  model : Option (List (String × Int))
  timeout : Option Int
  logPath : Option String
deriving DecidableEq

/-- `Z3Model.__init__(timeout, logPath)`. -/
def Z3Model.init (timeout : Option Int) (logPath : Option String) : Z3Model :=
  ⟨[], [], none, none, timeout, logPath⟩

/-- `Z3Model.addVariable`: `self.variables[variable.decl().name()] = variable`
(the Python field `variables` is named `varTable` here because `variables` is
reserved in Lean). -/
def Z3Model.addVariable (m : Z3Model) (v : Z3Var) : Z3Model :=
  { m with varTable := m.varTable ++ [(v.name, v)] }

/-- `Z3Model.addConstraint`: `self.constraints.append(constraint)`. -/
def Z3Model.addConstraint (m : Z3Model) (c : Z3Constraint) : Z3Model :=
  { m with constraints := m.constraints ++ [c] }

/-- `Z3Model.solve`: configure a solver (`getSolver`), add every stored
constraint, run `check()` (abstracted by the oracle), and set `self.model`
from `solver.model()` exactly when the check returned `sat`
(`status.r > 0`). -/
def Z3Model.solve (oracle : Z3Oracle) (m : Z3Model) : Z3Model :=
  { m with
    solver := some ⟨m.timeout, m.logPath, m.constraints, oracle.reason⟩,
    model := if oracle.res = Z3Res.sat then some oracle.assignment else none }

/-- The `Z3Model.status` property: with no model, return `LpStatusNotSolved`
when `reason_unknown()` is `"timeout"` and `LpStatusInfeasible` otherwise;
with a model, return `LpStatusOptimal`. Reading the property before `solve`
dereferences `None` (error case). -/
def Z3Model.status (m : Z3Model) : Except String Int :=
  match m.model with
  | some _ => .ok LpStatusOptimal
  | none =>
    match m.solver with
    | none => .error "AttributeError: reason_unknown on NoneType"
    | some s =>
      .ok (if s.reason = "timeout" then LpStatusNotSolved
           else LpStatusInfeasible)

/-- The problem object during a Z3 solve transaction: the generic data, the
facade configuration `Z3_PY` passes to `Z3Model` (`self.timeLimit`,
`self.logPath`), and the `lp.solverModel` attribute. -/
structure Z3State where
  data : LpData
  timeLimit : Option Int
  logPath : Option String
  solverModel : Option Z3Model
deriving DecidableEq

/-- The variable loop of `Z3_PY.buildSolverModel`: `z3.Int` for integer
variables, `z3.Real` for continuous ones (the dummy included), a
`ValueError` naming the category otherwise; then `addVariable` and the two
bound constraints `z3Var >= var.lowBound`, `z3Var <= var.upBound`.
Comparing a Z3 variable with a Python `None` bound raises a `Z3Exception`
inside the bindings (modelled by the error case on an absent bound). -/
def z3AddVars : List LpVariable → Z3Model → Z3Model × Option String
  | [], m => (m, none)
  | v :: rest, m =>
    let kindResult : Except String Z3Var :=
      if v.cat = LpInteger then .ok (Z3Var.intVar v.name)
      else if v.cat = LpContinuous then .ok (Z3Var.realVar v.name)
      else .error ("Z3: Variable type " ++ v.cat ++ " not supported")
    match kindResult with
    | .error e => (m, some e)
    | .ok zv =>
      let m1 := m.addVariable zv
      match v.lowBound with
      | none => (m1, some "Z3Exception: None is not a Z3 numeral")
      | some lb =>
        let m2 := m1.addConstraint (.lower v.name lb)
        match v.upBound with
        | none => (m2, some "Z3Exception: None is not a Z3 numeral")
        | some ub =>
          z3AddVars rest (m2.addConstraint (.upper v.name ub))

/-- The expression building inside the constraint loop of
`Z3_PY.buildSolverModel`: for each `(v, coefficient)` item append
`coefficient * lp.solverModel.getVariable(v.name)`; a missing key raises
`KeyError`. -/
def z3BuildExpr (varTable : List (String × Z3Var)) :
    List (String × Int) → Except String (List (Int × String))
  | [] => .ok []
  | (n, coeff) :: rest =>
    match alookup n varTable with
    | none => .error ("KeyError: " ++ n)
    | some zv =>
      match z3BuildExpr varTable rest with
      | .error e => .error e
      | .ok es => .ok ((coeff, zv.name) :: es)

/-- One generic constraint translated inside the constraint loop of
`Z3_PY.buildSolverModel` (lines 151-163): build the expression, set
`rhs = -constraint.constant`, and compare with `==`, `<=` or (the `else`
branch) `>=` according to the sense. -/
def z3BuildConstraint (varTable : List (String × Z3Var))
    (c : LpConstraint) : Except String Z3Constraint :=
  match z3BuildExpr varTable c.terms with
  | .error e => .error e
  | .ok lhs =>
    let rhs := -c.constant
    if c.sense = LpConstraintEQ then .ok (.cmp lhs .eq rhs)
    else if c.sense = LpConstraintLE then .ok (.cmp lhs .le rhs)
    else .ok (.cmp lhs .ge rhs)

/-- The constraint loop of `Z3_PY.buildSolverModel`: translate each
constraint and `addConstraint` it. -/
def z3AddConstraints (varTable : List (String × Z3Var)) :
    List LpConstraint → Z3Model → Z3Model × Option String
  | [], m => (m, none)
  | c :: rest, m =>
    match z3BuildConstraint varTable c with
    | .error e => (m, some e)
    | .ok zc => z3AddConstraints varTable rest (m.addConstraint zc)

/-- The computation performed by `Z3_PY.buildSolverModel` on the generic
data: starting from a fresh `Z3Model(self.timeLimit, self.logPath)`, add
the variables with their bound constraints, then add the translated
generic constraints. The objective (`lp.objective`, `lp.sense`) is never
read. Returns the (possibly partial, when an exception was raised) native
model and the error. -/
def z3BuildCore (tl : Option Int) (lg : Option String) (d : LpData) :
    Z3Model × Option String :=
  let m0 := Z3Model.init tl lg
  match z3AddVars d.vars m0 with
  | (m1, some e) => (m1, some e)
  | (m1, none) => z3AddConstraints m1.varTable d.constraints m1

/-- `Z3_PY.buildSolverModel`: assign a fresh
`Z3Model(self.timeLimit, self.logPath)` onto `lp.solverModel` and run the
build; since the attribute is assigned before the loops, every exit —
normal or exceptional — leaves the (possibly partial) native model
attached to `lp`. -/
def z3BuildSolverModel (st : Z3State) : Z3State × Option String :=
  let r := z3BuildCore st.timeLimit st.logPath st.data
  ({ st with solverModel := some r.1 }, r.2)

/-- `Z3_PY.callSolver`: `lp.solverModel.solve()`. -/
def z3CallSolver (oracle : Z3Oracle) (st : Z3State) : Z3State :=
  { st with solverModel := st.solverModel.map (Z3Model.solve oracle) }

/-- The value-writing loop of `Z3_PY.findSolutionValues`: for every
variable (the dummy has no special treatment here), assign
`var.varValue = lp.solverModel.model[lp.solverModel.getVariable(var.name)]`;
a missing `variables` key raises `KeyError`, keeping the writes already
performed; a variable absent from the Z3 model reads as `None`. -/
def z3WriteValues (assign : List (String × Int))
    (varTable : List (String × Z3Var)) :
    List LpVariable → List LpVariable × Option String
  | [] => ([], none)
  | v :: rest =>
    match alookup v.name varTable with
    | none => (v :: rest, some ("KeyError: " ++ v.name))
    | some zv =>
      let (r, e) := z3WriteValues assign varTable rest
      ({ v with varValue := alookup zv.name assign } :: r, e)

/-- `Z3_PY.findSolutionValues`: return the mapped status unchanged when it
is not `LpStatusOptimal`; otherwise write every variable's value from the
Z3 model and return `LpStatusOptimal`. -/
def z3FindSolutionValues (st : Z3State) : Z3State × Except String Int :=
  match st.solverModel with
  | none => (st, .error "AttributeError: solverModel")
  | some m =>
    match m.status with
    | .error e => (st, .error e)
    | .ok s =>
      if s ≠ LpStatusOptimal then (st, .ok s)
      else
        match m.model with
        | none => (st, .error "TypeError: NoneType is not subscriptable")
        | some assign =>
          let (vs, e) := z3WriteValues assign m.varTable st.data.vars
          let st1 := { st with data := { st.data with vars := vs } }
          match e with
          | some err => (st1, .error err)
          | none => (st1, .ok LpStatusOptimal)

/-- `Z3_PY.actualSolve`: build, call the solver, map the result, then clear
every variable's `modified` flag and every constraint's change marker, and
return the mapped status. An exception anywhere propagates, keeping the
mutations already performed. -/
def z3ActualSolve (oracle : Z3Oracle) (st : Z3State) :
    Z3State × Except String Int :=
  match z3BuildSolverModel st with
  | (st1, some e) => (st1, .error e)
  | (st1, none) =>
    match z3FindSolutionValues (z3CallSolver oracle st1) with
    | (st3, .error e) => (st3, .error e)
    | (st3, .ok s) =>
      ({ st3 with data := { st3.data with
          vars := st3.data.vars.map (fun v => { v with modified := false }),
          constraints := st3.data.constraints.map
            (fun c => { c with modifier := false }) } }, .ok s)

/-! ### Semantics and spec-side definitions -/

/-- Value of a native linear expression `Σ coeff·handle` under a valuation
of the handles. -/
def evalLin (val : String → Int) (e : List (Int × String)) : Int :=
  (e.map fun t => t.1 * val t.2).sum

/-- Value of a generic coefficient mapping `Σ coeff·var` under a valuation
of the variable names. -/
def evalTerms (val : String → Int) (ts : List (String × Int)) : Int :=
  (ts.map fun t => t.2 * val t.1).sum

/-- Spec-side semantics of a generic constraint (spec section 3):
`Σ(coeff·var) + constant {=,≤,≥} 0` according to the sense. Used as the
reference point for the translation claim C5. -/
def LpConstraint.specHolds (c : LpConstraint) (val : String → Int) : Prop :=
  if c.sense = LpConstraintEQ then evalTerms val c.terms + c.constant = 0
  else if c.sense = LpConstraintLE then evalTerms val c.terms + c.constant ≤ 0
  else evalTerms val c.terms + c.constant ≥ 0

/-- Satisfaction of a native CP-SAT constraint under a valuation of the
native handles. -/
def CpConstraint.holdsAt (c : CpConstraint) (val : String → Int) : Prop :=
  match c.rel with
  | .eq => evalLin val c.expr = c.rhs
  | .le => evalLin val c.expr ≤ c.rhs
  | .ge => evalLin val c.expr ≥ c.rhs

/-- Satisfaction of a native Z3 constraint under a valuation of the
variable names. -/
def Z3Constraint.holdsAt (zc : Z3Constraint) (val : String → Int) : Prop :=
  match zc with
  | .cmp lhs rel rhs =>
    match rel with
    | .eq => evalLin val lhs = rhs
    | .le => evalLin val lhs ≤ rhs
    | .ge => evalLin val lhs ≥ rhs
  | .lower v b => val v ≥ b
  | .upper v b => val v ≤ b

/-- Amended status table for the CP-SAT backend (claim C1 as amended):
`FEASIBLE`/`OPTIMAL` map to Optimal, `INFEASIBLE` to Infeasible,
`MODEL_INVALID`/`UNKNOWN` to Undefined. -/
def amendedStatusCpsat : CpRaw → Int
  | .FEASIBLE => LpStatusOptimal
  | .OPTIMAL => LpStatusOptimal
  | .INFEASIBLE => LpStatusInfeasible
  | .MODEL_INVALID => LpStatusUndefined
  | .UNKNOWN => LpStatusUndefined

/-- Amended status table for the Z3 backend (claim C1 as amended): a `sat`
outcome maps to Optimal; any outcome without a model maps to NotSolved when
the unknown-reason is `"timeout"` and to Infeasible otherwise — in
particular a non-timeout `unknown` maps to Infeasible, not to
NotSolved/Undefined. -/
def amendedStatusZ3 (res : Z3Res) (reason : String) : Int :=
  if res = Z3Res.sat then LpStatusOptimal
  else if reason = "timeout" then LpStatusNotSolved
  else LpStatusInfeasible

/-- The data content of a generic constraint (everything except the
change marker): used to state that mapping mutates nothing else on the
Constraint entities. -/
def LpConstraint.core (c : LpConstraint) : List (String × Int) × Int × Int :=
  (c.terms, c.constant, c.sense)

/-! ### Concrete example models used by counterexamples and witnesses -/

/-- Example integer variable `x ∈ [0, 5]`. -/
def exX : LpVariable := ⟨"x", LpInteger, some 0, some 5, none, true⟩

/-- Example model: one integer variable, objective `min x`. -/
def exData : LpData := ⟨[exX], [], [("x", 1)], LpMinimize⟩

/-- Example CP-SAT transaction start state for `exData`. -/
def exCpSt : CpState := ⟨exData, none, none, none, none⟩

/-- Example Z3 transaction start state for `exData`. -/
def exZ3St : Z3State := ⟨exData, none, none, none⟩

/-- Integer variable with an absent (open) lower bound. -/
def exOpenVar : LpVariable := ⟨"y", LpInteger, none, some 5, none, true⟩

/-- Non-dummy continuous variable. -/
def exContVar : LpVariable := ⟨"z", LpContinuous, some 0, some 1, none, true⟩

/-- The reserved continuous dummy sentinel variable. -/
def exDummyVar : LpVariable :=
  ⟨"__dummy", LpContinuous, some 0, some 0, none, true⟩

/-! ### Helper lemmas about the CP-SAT build -/

theorem cpsatAddVars_objective (vs : List LpVariable) (m : CpModel)
    (mv : List (String × String)) :
    ((cpsatAddVars vs m mv).1).objective = m.objective := by
  induction vs generalizing m mv with
  | nil => rfl
  | cons v rest ih =>
    simp only [cpsatAddVars]
    split
    · cases v.lowBound <;> cases v.upBound <;> simp [ih]
    · split
      · split <;> simp [ih]
      · rfl

theorem cpsatAddConstraints_objective (cs : List LpConstraint) (m : CpModel)
    (mv : List (String × String)) :
    ((cpsatAddConstraints mv cs m).1).objective = m.objective := by
  induction cs generalizing m with
  | nil => rfl
  | cons c rest ih =>
    simp only [cpsatAddConstraints]
    split <;> simp [ih]

theorem cpsatAddVars_intVars_mem (vs : List LpVariable) (m : CpModel)
    (mv : List (String × String)) (t : String × Int × Int)
    (ht : t ∈ ((cpsatAddVars vs m mv).1).intVars) :
    t ∈ m.intVars ∨ ∃ v, v ∈ vs ∧ v.cat = LpInteger ∧ v.name = t.1 ∧
      v.lowBound = some t.2.1 ∧ v.upBound = some t.2.2 := by
  induction vs generalizing m mv with
  | nil => exact Or.inl ht
  | cons v rest ih =>
    simp only [cpsatAddVars] at ht
    by_cases hint : v.cat = LpInteger
    · simp only [if_pos hint] at ht
      cases hlb : v.lowBound with
      | none => simp [hlb] at ht; exact Or.inl ht
      | some lb =>
        cases hub : v.upBound with
        | none => simp [hlb, hub] at ht; exact Or.inl ht
        | some ub =>
          simp only [hlb, hub] at ht
          rcases ih _ _ ht with h | ⟨w, hw, hrest⟩
          · rcases List.mem_append.1 h with h' | h'
            · exact Or.inl h'
            · rcases List.mem_singleton.1 h' with rfl
              exact Or.inr ⟨v, List.mem_cons_self .., hint, rfl, hlb, hub⟩
          · exact Or.inr ⟨w, List.mem_cons_of_mem _ hw, hrest⟩
    · simp only [if_neg hint] at ht
      by_cases hcont : v.cat = LpContinuous
      · simp only [if_pos hcont] at ht
        by_cases hn : v.name ≠ "__dummy"
        · simp [hn] at ht; exact Or.inl ht
        · simp only [if_neg hn] at ht
          rcases ih _ _ ht with h | ⟨w, hw, hrest⟩
          · exact Or.inl h
          · exact Or.inr ⟨w, List.mem_cons_of_mem _ hw, hrest⟩
      · simp [hcont] at ht; exact Or.inl ht

theorem cpsatAddVars_modelVars_mem (vs : List LpVariable) (m : CpModel)
    (mv : List (String × String)) (p : String × String)
    (hp : p ∈ (cpsatAddVars vs m mv).2.1) :
    p ∈ mv ∨ ∃ v, v ∈ vs ∧ v.cat = LpInteger ∧ p = (v.name, v.name) := by
  induction vs generalizing m mv with
  | nil => exact Or.inl hp
  | cons v rest ih =>
    simp only [cpsatAddVars] at hp
    by_cases hint : v.cat = LpInteger
    · simp only [if_pos hint] at hp
      cases hlb : v.lowBound with
      | none => simp [hlb] at hp; exact Or.inl hp
      | some lb =>
        cases hub : v.upBound with
        | none => simp [hlb, hub] at hp; exact Or.inl hp
        | some ub =>
          simp only [hlb, hub] at hp
          rcases ih _ _ hp with h | ⟨w, hw, hrest⟩
          · rcases List.mem_append.1 h with h' | h'
            · exact Or.inl h'
            · rcases List.mem_singleton.1 h' with rfl
              exact Or.inr ⟨v, List.mem_cons_self .., hint, rfl⟩
          · exact Or.inr ⟨w, List.mem_cons_of_mem _ hw, hrest⟩
    · simp only [if_neg hint] at hp
      by_cases hcont : v.cat = LpContinuous
      · simp only [if_pos hcont] at hp
        by_cases hn : v.name ≠ "__dummy"
        · simp [hn] at hp; exact Or.inl hp
        · simp only [if_neg hn] at hp
          rcases ih _ _ hp with h | ⟨w, hw, hrest⟩
          · exact Or.inl h
          · exact Or.inr ⟨w, List.mem_cons_of_mem _ hw, hrest⟩
      · simp [hcont] at hp; exact Or.inl hp

theorem cpsatAddVars_fail_int (vs : List LpVariable) (m : CpModel)
    (mv : List (String × String)) (v : LpVariable) (hv : v ∈ vs)
    (hcat : v.cat = LpInteger) (hb : v.lowBound = none ∨ v.upBound = none) :
    (cpsatAddVars vs m mv).2.2.isSome := by
  induction vs generalizing m mv with
  | nil => cases hv
  | cons w rest ih =>
    rcases List.mem_cons.1 hv with rfl | hv'
    · simp only [cpsatAddVars, if_pos hcat]
      rcases hb with hb | hb
      · cases hub : v.upBound <;> simp [hb]
      · cases hlb : v.lowBound <;> simp [hb]
    · simp only [cpsatAddVars]
      by_cases hint : w.cat = LpInteger
      · simp only [if_pos hint]
        cases hlb : w.lowBound with
        | none => simp
        | some lb =>
          cases hub : w.upBound with
          | none => simp
          | some ub => exact ih _ _ hv'
      · simp only [if_neg hint]
        by_cases hcont : w.cat = LpContinuous
        · simp only [if_pos hcont]
          by_cases hn : w.name ≠ "__dummy"
          · simp [hn]
          · simp only [if_neg hn]; exact ih _ _ hv'
        · simp [hcont]

theorem cpsatAddVars_fail_cont (vs : List LpVariable) (m : CpModel)
    (mv : List (String × String)) (v : LpVariable) (hv : v ∈ vs)
    (hcat : v.cat = LpContinuous) (hn : v.name ≠ "__dummy") :
    (cpsatAddVars vs m mv).2.2.isSome := by
  induction vs generalizing m mv with
  | nil => cases hv
  | cons w rest ih =>
    rcases List.mem_cons.1 hv with rfl | hv'
    · have hint : ¬ v.cat = LpInteger := by
        rw [hcat]; decide
      simp only [cpsatAddVars, if_neg hint, if_pos hcat, if_pos hn]
      simp
    · simp only [cpsatAddVars]
      by_cases hint : w.cat = LpInteger
      · simp only [if_pos hint]
        cases hlb : w.lowBound with
        | none => simp
        | some lb =>
          cases hub : w.upBound with
          | none => simp
          | some ub => exact ih _ _ hv'
      · simp only [if_neg hint]
        by_cases hcont : w.cat = LpContinuous
        · simp only [if_pos hcont]
          by_cases hn' : w.name ≠ "__dummy"
          · simp [hn']
          · simp only [if_neg hn']; exact ih _ _ hv'
        · simp [hcont]

theorem cpsatBuild_fail_of_vars_fail (st : CpState)
    (h : (cpsatAddVars st.data.vars ⟨[], [], none⟩ []).2.2.isSome) :
    (cpsatBuildSolverModel st).2.isSome := by
  simp only [cpsatBuildSolverModel, cpsatBuildCore]
  rcases hav : cpsatAddVars st.data.vars ⟨[], [], none⟩ [] with ⟨m1, mv, e⟩
  cases e with
  | none => rw [hav] at h; simp at h
  | some err => simp

theorem cpsatWriteValues_dummy (assign : List (String × Int))
    (mv : List (String × String)) (vs : List LpVariable) :
    ((cpsatWriteValues assign mv vs).1).filter (fun v => v.name == "__dummy")
      = vs.filter (fun v => v.name == "__dummy") := by
  induction vs with
  | nil => rfl
  | cons v rest ih =>
    simp only [cpsatWriteValues]
    by_cases hn : v.name = "__dummy"
    · rcases hrec : cpsatWriteValues assign mv rest with ⟨r, e⟩
      rw [hrec] at ih
      simp [hn, hrec, List.filter, ih]
    · simp only [if_neg hn]
      cases hl : alookup v.name mv with
      | none => simp
      | some h =>
        rcases hrec : cpsatWriteValues assign mv rest with ⟨r, e⟩
        rw [hrec] at ih
        have hb : (v.name == "__dummy") = false := by
          simp [hn]
        simp [hrec, List.filter, hb, ih]

theorem cpsatAddVars_cont_error (vs : List LpVariable) (m : CpModel)
    (mv : List (String × String))
    (hall : ∀ v ∈ vs,
      (v.cat = LpInteger ∧ v.lowBound.isSome ∧ v.upBound.isSome)
        ∨ v.cat = LpContinuous)
    (v : LpVariable) (hv : v ∈ vs) (hcat : v.cat = LpContinuous)
    (hn : v.name ≠ "__dummy") :
    (cpsatAddVars vs m mv).2.2
      = some "CPSAT_PY: Continuous variables are not supported" := by
  induction vs generalizing m mv with
  | nil => cases hv
  | cons w rest ih =>
    have hallrest : ∀ u ∈ rest,
        (u.cat = LpInteger ∧ u.lowBound.isSome ∧ u.upBound.isSome)
          ∨ u.cat = LpContinuous :=
      fun u hu => hall u (List.mem_cons_of_mem _ hu)
    rcases hall w (List.mem_cons_self ..) with ⟨hwint, hwlb, hwub⟩ | hwcont
    · have hvrest : v ∈ rest := by
        rcases List.mem_cons.1 hv with rfl | h
        · rw [hwint] at hcat
          exact absurd hcat (by decide)
        · exact h
      rcases Option.isSome_iff_exists.1 hwlb with ⟨lb, hlb⟩
      rcases Option.isSome_iff_exists.1 hwub with ⟨ub, hub⟩
      simp only [cpsatAddVars, if_pos hwint, hlb, hub]
      exact ih _ _ hallrest hvrest
    · have hwint : ¬ w.cat = LpInteger := by
        rw [hwcont]; decide
      by_cases hwn : w.name ≠ "__dummy"
      · simp [cpsatAddVars, if_neg hwint, if_pos hwcont, if_pos hwn]
      · have hvrest : v ∈ rest := by
          rcases List.mem_cons.1 hv with rfl | h
          · exact absurd hn hwn
          · exact h
        simp only [cpsatAddVars, if_neg hwint, if_pos hwcont, if_neg hwn]
        exact ih _ _ hallrest hvrest

theorem cpsatBuildCore_err_of_vars (d : LpData) (e : String)
    (h : (cpsatAddVars d.vars ⟨[], [], none⟩ []).2.2 = some e) :
    (cpsatBuildCore d).2.2 = some e := by
  simp only [cpsatBuildCore]
  rcases hav : cpsatAddVars d.vars ⟨[], [], none⟩ [] with ⟨m1, mv, e'⟩
  rw [hav] at h
  simp only at h
  subst h
  simp

/-! ### Helper lemmas about the Z3 build -/

theorem alookup_isSome_of_mem {β : Type} (k : String) (x : β)
    (l : List (String × β)) (h : (k, x) ∈ l) : (alookup k l).isSome := by
  induction l with
  | nil => cases h
  | cons p rest ih =>
    simp only [alookup]
    by_cases hp : p.1 = k
    · simp [hp]
    · rcases List.mem_cons.1 h with rfl | h'
      · simp at hp
      · simp only [if_neg hp]
        exact ih h'

theorem z3AddVars_mono_varTable (vs : List LpVariable) (m : Z3Model)
    (p : String × Z3Var) (hp : p ∈ m.varTable) :
    p ∈ ((z3AddVars vs m).1).varTable := by
  induction vs generalizing m with
  | nil => exact hp
  | cons v rest ih =>
    simp only [z3AddVars]
    by_cases hint : v.cat = LpInteger
    · simp only [if_pos hint]
      cases hlb : v.lowBound with
      | none => simpa [Z3Model.addVariable] using Or.inl hp
      | some lb =>
        cases hub : v.upBound with
        | none =>
          simpa [Z3Model.addVariable, Z3Model.addConstraint] using
            Or.inl hp
        | some ub =>
          exact ih _ (by
            simpa [Z3Model.addVariable, Z3Model.addConstraint] using
              Or.inl hp)
    · simp only [if_neg hint]
      by_cases hcont : v.cat = LpContinuous
      · simp only [if_pos hcont]
        cases hlb : v.lowBound with
        | none => simpa [Z3Model.addVariable] using Or.inl hp
        | some lb =>
          cases hub : v.upBound with
          | none =>
            simpa [Z3Model.addVariable, Z3Model.addConstraint] using
              Or.inl hp
          | some ub =>
            exact ih _ (by
              simpa [Z3Model.addVariable, Z3Model.addConstraint] using
                Or.inl hp)
      · simpa [hcont] using hp

theorem z3AddVars_mono_constraints (vs : List LpVariable) (m : Z3Model)
    (c : Z3Constraint) (hc : c ∈ m.constraints) :
    c ∈ ((z3AddVars vs m).1).constraints := by
  induction vs generalizing m with
  | nil => exact hc
  | cons v rest ih =>
    simp only [z3AddVars]
    by_cases hint : v.cat = LpInteger
    · simp only [if_pos hint]
      cases hlb : v.lowBound with
      | none => simpa [Z3Model.addVariable] using hc
      | some lb =>
        cases hub : v.upBound with
        | none =>
          simpa [Z3Model.addVariable, Z3Model.addConstraint] using
            Or.inl hc
        | some ub =>
          exact ih _ (by
            simpa [Z3Model.addVariable, Z3Model.addConstraint] using
              Or.inl hc)
    · simp only [if_neg hint]
      by_cases hcont : v.cat = LpContinuous
      · simp only [if_pos hcont]
        cases hlb : v.lowBound with
        | none => simpa [Z3Model.addVariable] using hc
        | some lb =>
          cases hub : v.upBound with
          | none =>
            simpa [Z3Model.addVariable, Z3Model.addConstraint] using
              Or.inl hc
          | some ub =>
            exact ih _ (by
              simpa [Z3Model.addVariable, Z3Model.addConstraint] using
                Or.inl hc)
      · simpa [hcont] using hc

theorem z3AddConstraints_varTable (vt : List (String × Z3Var))
    (cs : List LpConstraint) (m : Z3Model) :
    ((z3AddConstraints vt cs m).1).varTable = m.varTable := by
  induction cs generalizing m with
  | nil => rfl
  | cons c rest ih =>
    simp only [z3AddConstraints]
    split
    · rfl
    · simp [ih, Z3Model.addConstraint]

theorem z3AddConstraints_mono_constraints (vt : List (String × Z3Var))
    (cs : List LpConstraint) (m : Z3Model) (c : Z3Constraint)
    (hc : c ∈ m.constraints) :
    c ∈ ((z3AddConstraints vt cs m).1).constraints := by
  induction cs generalizing m with
  | nil => exact hc
  | cons c' rest ih =>
    simp only [z3AddConstraints]
    split
    · exact hc
    · exact ih _ (by
        simpa [Z3Model.addConstraint] using Or.inl hc)

theorem z3AddVars_fail_noBound (vs : List LpVariable) (m : Z3Model)
    (v : LpVariable) (hv : v ∈ vs)
    (hb : v.lowBound = none ∨ v.upBound = none) :
    (z3AddVars vs m).2.isSome := by
  induction vs generalizing m with
  | nil => cases hv
  | cons w rest ih =>
    simp only [z3AddVars]
    by_cases hint : w.cat = LpInteger
    · simp only [if_pos hint]
      cases hlb : w.lowBound with
      | none => simp
      | some lb =>
        cases hub : w.upBound with
        | none => simp
        | some ub =>
          simp only []
          rcases List.mem_cons.1 hv with rfl | hv'
          · rcases hb with hb | hb
            · rw [hb] at hlb; cases hlb
            · rw [hb] at hub; cases hub
          · exact ih _ hv'
    · simp only [if_neg hint]
      by_cases hcont : w.cat = LpContinuous
      · simp only [if_pos hcont]
        cases hlb : w.lowBound with
        | none => simp
        | some lb =>
          cases hub : w.upBound with
          | none => simp
          | some ub =>
            simp only []
            rcases List.mem_cons.1 hv with rfl | hv'
            · rcases hb with hb | hb
              · rw [hb] at hlb; cases hlb
              · rw [hb] at hub; cases hub
            · exact ih _ hv'
      · simp [hcont]

theorem z3AddVars_ok (vs : List LpVariable) (m : Z3Model)
    (hok : (z3AddVars vs m).2 = none) (v : LpVariable) (hv : v ∈ vs) :
    (v.cat = LpInteger ∨ v.cat = LpContinuous) ∧
    v.lowBound.isSome ∧ v.upBound.isSome ∧
    (v.cat = LpInteger →
       (v.name, Z3Var.intVar v.name) ∈ ((z3AddVars vs m).1).varTable) ∧
    (v.cat = LpContinuous →
       (v.name, Z3Var.realVar v.name) ∈ ((z3AddVars vs m).1).varTable) ∧
    (∀ b, v.lowBound = some b →
       Z3Constraint.lower v.name b ∈ ((z3AddVars vs m).1).constraints) ∧
    (∀ b, v.upBound = some b →
       Z3Constraint.upper v.name b ∈ ((z3AddVars vs m).1).constraints) := by
  induction vs generalizing m with
  | nil => cases hv
  | cons w rest ih =>
    by_cases hint : w.cat = LpInteger
    · cases hlb : w.lowBound with
      | none => simp [z3AddVars, if_pos hint, hlb] at hok
      | some lb =>
        cases hub : w.upBound with
        | none => simp [z3AddVars, if_pos hint, hlb, hub] at hok
        | some ub =>
          have hstep : z3AddVars (w :: rest) m
              = z3AddVars rest
                  (((m.addVariable (Z3Var.intVar w.name)).addConstraint
                      (.lower w.name lb)).addConstraint
                    (.upper w.name ub)) := by
            simp [z3AddVars, if_pos hint, hlb, hub]
          rw [hstep] at hok ⊢
          rcases List.mem_cons.1 hv with rfl | hv'
          · refine ⟨Or.inl hint, by simp [hlb], by simp [hub],
              fun _ => ?_, fun hc => ?_, fun b hbeq => ?_, fun b hbeq => ?_⟩
            · exact z3AddVars_mono_varTable _ _ _ (by
                simp [Z3Model.addVariable, Z3Model.addConstraint, Z3Var.name])
            · rw [hint] at hc; exact absurd hc (by decide)
            · rw [hlb] at hbeq
              rcases Option.some.inj hbeq with rfl
              exact z3AddVars_mono_constraints _ _ _ (by
                simp [Z3Model.addVariable, Z3Model.addConstraint])
            · rw [hub] at hbeq
              rcases Option.some.inj hbeq with rfl
              exact z3AddVars_mono_constraints _ _ _ (by
                simp [Z3Model.addVariable, Z3Model.addConstraint])
          · exact ih _ hok hv'
    · by_cases hcont : w.cat = LpContinuous
      · cases hlb : w.lowBound with
        | none => simp [z3AddVars, if_neg hint, if_pos hcont, hlb] at hok
        | some lb =>
          cases hub : w.upBound with
          | none =>
            simp [z3AddVars, if_neg hint, if_pos hcont, hlb, hub] at hok
          | some ub =>
            have hstep : z3AddVars (w :: rest) m
                = z3AddVars rest
                    (((m.addVariable (Z3Var.realVar w.name)).addConstraint
                        (.lower w.name lb)).addConstraint
                      (.upper w.name ub)) := by
              simp [z3AddVars, if_neg hint, if_pos hcont, hlb, hub]
            rw [hstep] at hok ⊢
            rcases List.mem_cons.1 hv with rfl | hv'
            · refine ⟨Or.inr hcont, by simp [hlb], by simp [hub],
                fun hc => ?_, fun _ => ?_, fun b hbeq => ?_, fun b hbeq => ?_⟩
              · rw [hcont] at hc; exact absurd hc (by decide)
              · exact z3AddVars_mono_varTable _ _ _ (by
                  simp [Z3Model.addVariable, Z3Model.addConstraint, Z3Var.name])
              · rw [hlb] at hbeq
                rcases Option.some.inj hbeq with rfl
                exact z3AddVars_mono_constraints _ _ _ (by
                  simp [Z3Model.addVariable, Z3Model.addConstraint])
              · rw [hub] at hbeq
                rcases Option.some.inj hbeq with rfl
                exact z3AddVars_mono_constraints _ _ _ (by
                  simp [Z3Model.addVariable, Z3Model.addConstraint])
            · exact ih _ hok hv'
      · simp [z3AddVars, if_neg hint, if_neg hcont] at hok

theorem z3AddVars_ok_of (vs : List LpVariable) (m : Z3Model)
    (h : ∀ v ∈ vs, (v.cat = LpInteger ∨ v.cat = LpContinuous) ∧
      v.lowBound.isSome ∧ v.upBound.isSome) :
    (z3AddVars vs m).2 = none := by
  induction vs generalizing m with
  | nil => rfl
  | cons w rest ih =>
    rcases h w (List.mem_cons_self ..) with ⟨hcat, hlb, hub⟩
    rcases Option.isSome_iff_exists.1 hlb with ⟨lb, hlb'⟩
    rcases Option.isSome_iff_exists.1 hub with ⟨ub, hub'⟩
    have hrest : ∀ v ∈ rest, (v.cat = LpInteger ∨ v.cat = LpContinuous) ∧
        v.lowBound.isSome ∧ v.upBound.isSome :=
      fun v hv => h v (List.mem_cons_of_mem _ hv)
    rcases hcat with hint | hcont
    · simp only [z3AddVars, if_pos hint, hlb', hub']
      exact ih _ hrest
    · have hint : ¬ w.cat = LpInteger := by
        rw [hcont]; decide
      simp only [z3AddVars, if_neg hint, if_pos hcont, hlb', hub']
      exact ih _ hrest

theorem z3AddVars_err (vs : List LpVariable) (m : Z3Model)
    (hbounds : ∀ v ∈ vs, v.lowBound.isSome ∧ v.upBound.isSome)
    (e : String) (he : (z3AddVars vs m).2 = some e) :
    ∃ v, v ∈ vs ∧ ¬(v.cat = LpInteger ∨ v.cat = LpContinuous) ∧
      e = "Z3: Variable type " ++ v.cat ++ " not supported" := by
  induction vs generalizing m with
  | nil => cases he
  | cons w rest ih =>
    have hrest : ∀ v ∈ rest, v.lowBound.isSome ∧ v.upBound.isSome :=
      fun v hv => hbounds v (List.mem_cons_of_mem _ hv)
    rcases Option.isSome_iff_exists.1
      (hbounds w (List.mem_cons_self ..)).1 with ⟨lb, hlb⟩
    rcases Option.isSome_iff_exists.1
      (hbounds w (List.mem_cons_self ..)).2 with ⟨ub, hub⟩
    by_cases hint : w.cat = LpInteger
    · simp only [z3AddVars, if_pos hint, hlb, hub] at he
      rcases ih _ hrest he with ⟨v, hv, hcat, hmsg⟩
      exact ⟨v, List.mem_cons_of_mem _ hv, hcat, hmsg⟩
    · by_cases hcont : w.cat = LpContinuous
      · simp only [z3AddVars, if_neg hint, if_pos hcont, hlb, hub] at he
        rcases ih _ hrest he with ⟨v, hv, hcat, hmsg⟩
        exact ⟨v, List.mem_cons_of_mem _ hv, hcat, hmsg⟩
      · simp only [z3AddVars, if_neg hint, if_neg hcont] at he
        refine ⟨w, List.mem_cons_self .., ?_, ?_⟩
        · intro hc
          rcases hc with hc | hc
          · exact hint hc
          · exact hcont hc
        · exact (Option.some.inj he).symm

theorem z3BuildExpr_ok (vt : List (String × Z3Var)) (ts : List (String × Int))
    (h : ∀ p ∈ ts, (alookup p.1 vt).isSome) :
    ∃ es, z3BuildExpr vt ts = .ok es := by
  induction ts with
  | nil => exact ⟨[], rfl⟩
  | cons p rest ih =>
    rcases p with ⟨n, coeff⟩
    rcases Option.isSome_iff_exists.1
      (h (n, coeff) (List.mem_cons_self ..)) with ⟨zv, hzv⟩
    rcases ih (fun q hq => h q (List.mem_cons_of_mem _ hq)) with ⟨es, hes⟩
    exact ⟨(coeff, zv.name) :: es, by simp [z3BuildExpr, hzv, hes]⟩

theorem z3BuildConstraint_ok (vt : List (String × Z3Var)) (c : LpConstraint)
    (h : ∀ p ∈ c.terms, (alookup p.1 vt).isSome) :
    ∃ lhs rel, z3BuildConstraint vt c
      = .ok (.cmp lhs rel (-c.constant)) := by
  rcases z3BuildExpr_ok vt c.terms h with ⟨es, hes⟩
  by_cases h1 : c.sense = LpConstraintEQ
  · exact ⟨es, .eq, by simp [z3BuildConstraint, hes, h1]⟩
  · by_cases h2 : c.sense = LpConstraintLE
    · exact ⟨es, .le, by
        simp only [z3BuildConstraint, hes, if_neg h1, if_pos h2]⟩
    · exact ⟨es, .ge, by
        simp only [z3BuildConstraint, hes, if_neg h1, if_neg h2]⟩

theorem z3BuildConstraint_shape (vt : List (String × Z3Var))
    (c : LpConstraint) (zc : Z3Constraint)
    (h : z3BuildConstraint vt c = .ok zc) :
    ∃ lhs rel, zc = .cmp lhs rel (-c.constant) := by
  simp only [z3BuildConstraint] at h
  cases hbe : z3BuildExpr vt c.terms with
  | error e => rw [hbe] at h; cases h
  | ok es =>
    rw [hbe] at h
    by_cases h1 : c.sense = LpConstraintEQ
    · simp only [if_pos h1] at h
      exact ⟨es, .eq, (Except.ok.inj h).symm⟩
    · by_cases h2 : c.sense = LpConstraintLE
      · simp only [if_neg h1, if_pos h2] at h
        exact ⟨es, .le, (Except.ok.inj h).symm⟩
      · simp only [if_neg h1, if_neg h2] at h
        exact ⟨es, .ge, (Except.ok.inj h).symm⟩

theorem z3AddConstraints_ok (vt : List (String × Z3Var))
    (cs : List LpConstraint) (m : Z3Model)
    (h : ∀ c ∈ cs, ∀ p ∈ c.terms, (alookup p.1 vt).isSome) :
    (z3AddConstraints vt cs m).2 = none := by
  induction cs generalizing m with
  | nil => rfl
  | cons c rest ih =>
    rcases z3BuildConstraint_ok vt c
      (h c (List.mem_cons_self ..)) with ⟨lhs, rel, hc⟩
    simp only [z3AddConstraints, hc]
    exact ih _ (fun c' hc' => h c' (List.mem_cons_of_mem _ hc'))

theorem z3AddConstraints_bound_mem (vt : List (String × Z3Var))
    (cs : List LpConstraint) (m : Z3Model) (zc : Z3Constraint)
    (hshape : ∀ lhs rel rhs, zc ≠ .cmp lhs rel rhs)
    (h : zc ∈ ((z3AddConstraints vt cs m).1).constraints) :
    zc ∈ m.constraints := by
  induction cs generalizing m with
  | nil => exact h
  | cons c rest ih =>
    simp only [z3AddConstraints] at h
    cases hbc : z3BuildConstraint vt c with
    | error e => rw [hbc] at h; exact h
    | ok zc' =>
      rw [hbc] at h
      have h' := ih _ h
      have h2 : zc ∈ m.constraints ∨ zc = zc' := by
        simpa [Z3Model.addConstraint] using h'
      rcases h2 with h'' | rfl
      · exact h''
      · rcases z3BuildConstraint_shape vt c zc hbc with ⟨lhs, rel, hcmp⟩
        exact absurd hcmp (hshape lhs rel (-c.constant))

theorem z3AddVars_constraints_mem (vs : List LpVariable) (m : Z3Model)
    (c : Z3Constraint) (h : c ∈ ((z3AddVars vs m).1).constraints) :
    c ∈ m.constraints ∨ ∃ v, v ∈ vs ∧
      ((∃ b, v.lowBound = some b ∧ c = .lower v.name b) ∨
       (∃ b, v.upBound = some b ∧ c = .upper v.name b)) := by
  induction vs generalizing m with
  | nil => exact Or.inl h
  | cons w rest ih =>
    by_cases hint : w.cat = LpInteger
    · cases hlb : w.lowBound with
      | none =>
        simp only [z3AddVars, if_pos hint, hlb] at h
        exact Or.inl (by simpa [Z3Model.addVariable] using h)
      | some lb =>
        cases hub : w.upBound with
        | none =>
          simp only [z3AddVars, if_pos hint, hlb, hub] at h
          have h2 : c ∈ m.constraints ∨ c = Z3Constraint.lower w.name lb := by
            simpa [Z3Model.addVariable, Z3Model.addConstraint] using h
          rcases h2 with h2 | h2
          · exact Or.inl h2
          · exact Or.inr ⟨w, List.mem_cons_self ..,
              Or.inl ⟨lb, hlb, h2⟩⟩
        | some ub =>
          simp only [z3AddVars, if_pos hint, hlb, hub] at h
          rcases ih _ h with h' | ⟨v, hv, hrest⟩
          · have h2 : c ∈ m.constraints ∨
                c = Z3Constraint.lower w.name lb ∨
                c = Z3Constraint.upper w.name ub := by
              simpa [Z3Model.addVariable, Z3Model.addConstraint, or_assoc]
                using h'
            rcases h2 with h2 | h2 | h2
            · exact Or.inl h2
            · exact Or.inr ⟨w, List.mem_cons_self ..,
                Or.inl ⟨lb, hlb, h2⟩⟩
            · exact Or.inr ⟨w, List.mem_cons_self ..,
                Or.inr ⟨ub, hub, h2⟩⟩
          · exact Or.inr ⟨v, List.mem_cons_of_mem _ hv, hrest⟩
    · by_cases hcont : w.cat = LpContinuous
      · cases hlb : w.lowBound with
        | none =>
          simp only [z3AddVars, if_neg hint, if_pos hcont, hlb] at h
          exact Or.inl (by simpa [Z3Model.addVariable] using h)
        | some lb =>
          cases hub : w.upBound with
          | none =>
            simp only [z3AddVars, if_neg hint, if_pos hcont, hlb, hub] at h
            have h2 : c ∈ m.constraints ∨
                c = Z3Constraint.lower w.name lb := by
              simpa [Z3Model.addVariable, Z3Model.addConstraint] using h
            rcases h2 with h2 | h2
            · exact Or.inl h2
            · exact Or.inr ⟨w, List.mem_cons_self ..,
                Or.inl ⟨lb, hlb, h2⟩⟩
          | some ub =>
            simp only [z3AddVars, if_neg hint, if_pos hcont, hlb, hub] at h
            rcases ih _ h with h' | ⟨v, hv, hrest⟩
            · have h2 : c ∈ m.constraints ∨
                  c = Z3Constraint.lower w.name lb ∨
                  c = Z3Constraint.upper w.name ub := by
                simpa [Z3Model.addVariable, Z3Model.addConstraint, or_assoc]
                  using h'
              rcases h2 with h2 | h2 | h2
              · exact Or.inl h2
              · exact Or.inr ⟨w, List.mem_cons_self ..,
                  Or.inl ⟨lb, hlb, h2⟩⟩
              · exact Or.inr ⟨w, List.mem_cons_self ..,
                  Or.inr ⟨ub, hub, h2⟩⟩
            · exact Or.inr ⟨v, List.mem_cons_of_mem _ hv, hrest⟩
      · simp only [z3AddVars, if_neg hint, if_neg hcont] at h
        exact Or.inl h

/-! ### Helper lemmas about the solve transactions -/

theorem cpsatFind_ok_status (st : CpState) (st1 : CpState) (s : Int)
    (h : cpsatFindSolutionValues st = (st1, .ok s)) :
    ∃ raw, st.solverStatus = some raw ∧ s = cpsatStatusMap raw := by
  unfold cpsatFindSolutionValues at h
  split at h
  · simp at h
  · rename_i raw hss
    refine ⟨raw, hss, ?_⟩
    split at h
    · split at h
      · split at h
        split at h
        · simp at h
        · simp only [Prod.mk.injEq] at h
          exact (Except.ok.inj h.2).symm
      · simp at h
    · simp only [Prod.mk.injEq] at h
      exact (Except.ok.inj h.2).symm

theorem cpsatActualSolve_ok_status (o : CpOracle) (st st1 : CpState)
    (s : Int) (h : cpsatActualSolve o st = (st1, .ok s)) :
    s = cpsatStatusMap o.raw := by
  unfold cpsatActualSolve at h
  split at h
  · simp at h
  · rename_i stb hb
    split at h
    · simp at h
    · rename_i st3 s' hf
      simp only [Prod.mk.injEq] at h
      have hs : s = s' := (Except.ok.inj h.2).symm
      rcases cpsatFind_ok_status _ _ _ hf with ⟨raw, hraw, hmap⟩
      have hro : o.raw = raw := by
        simpa [cpsatCallSolver] using hraw
      rw [hs, hmap, ← hro]

theorem Z3Model_solve_status (o : Z3Oracle) (m : Z3Model) :
    (Z3Model.solve o m).status
      = .ok (amendedStatusZ3 o.res o.reason) := by
  by_cases hs : o.res = Z3Res.sat
  · simp [Z3Model.solve, Z3Model.status, amendedStatusZ3, hs]
  · simp [Z3Model.solve, Z3Model.status, amendedStatusZ3, hs]

theorem z3Find_ok_status (st : Z3State) (st1 : Z3State) (s : Int)
    (h : z3FindSolutionValues st = (st1, .ok s)) :
    ∃ m, st.solverModel = some m ∧ m.status = .ok s := by
  unfold z3FindSolutionValues at h
  split at h
  · simp at h
  · rename_i m hsm
    refine ⟨m, hsm, ?_⟩
    split at h
    · simp at h
    · rename_i s' hst
      split at h
      · simp only [Prod.mk.injEq] at h
        rw [hst, Except.ok.inj h.2]
      · rename_i hopt
        push_neg at hopt
        split at h
        · simp at h
        · split at h
          split at h
          · simp at h
          · simp only [Prod.mk.injEq] at h
            rw [hst, hopt, ← Except.ok.inj h.2]

theorem z3ActualSolve_ok_status (o : Z3Oracle) (st st1 : Z3State)
    (s : Int) (h : z3ActualSolve o st = (st1, .ok s)) :
    s = amendedStatusZ3 o.res o.reason := by
  unfold z3ActualSolve at h
  split at h
  · simp at h
  · rename_i stb hb
    split at h
    · simp at h
    · rename_i st3 s' hf
      simp only [Prod.mk.injEq] at h
      have hs : s = s' := (Except.ok.inj h.2).symm
      rcases z3Find_ok_status _ _ _ hf with ⟨m, hm, hstat⟩
      have hbm : stb.solverModel
          = some (z3BuildCore st.timeLimit st.logPath st.data).1 := by
        have h1 := congrArg Prod.fst hb
        simp only [z3BuildSolverModel] at h1
        rw [← h1]
      rw [z3CallSolver, hbm] at hm
      simp only [Option.map_some] at hm
      rcases Option.some.inj hm with rfl
      rw [Z3Model_solve_status] at hstat
      rw [hs, Except.ok.inj hstat]

theorem cpsatFind_frame (st : CpState) :
    ((cpsatFindSolutionValues st).1).data.constraints = st.data.constraints ∧
    ((cpsatFindSolutionValues st).1).data.objective = st.data.objective ∧
    ((cpsatFindSolutionValues st).1).data.sense = st.data.sense := by
  unfold cpsatFindSolutionValues
  split
  · simp
  · split
    · split
      · split
        split <;> simp
      · simp
    · simp

theorem z3Find_frame (st : Z3State) :
    ((z3FindSolutionValues st).1).data.constraints = st.data.constraints ∧
    ((z3FindSolutionValues st).1).data.objective = st.data.objective ∧
    ((z3FindSolutionValues st).1).data.sense = st.data.sense := by
  unfold z3FindSolutionValues
  split
  · simp
  · split
    · simp
    · split
      · simp
      · split
        · simp
        · split
          split <;> simp

/-! ### Claim C1 — status mapping (corrected) -/

/-- Claim C1, counterexample. The claim states that every backend-native
outcome other than an optimality proof, a feasibility-only solution, or a
proof of infeasibility — explicitly including an `unknown` outcome — is
mapped to NotSolved/Undefined. The Z3 mapper (`Z3Model.status`,
`src/pulp/apis/z3_api.py` lines 79-88) violates this: after a `check()`
that returns `unknown` with a non-timeout reason (here `"canceled"`, e.g.
an interrupted search or an incomplete theory), no model exists and the
mapper returns `LpStatusInfeasible` rather than NotSolved or Undefined. -/
theorem C1_counterexample :
    ((Z3Model.init none none).solve ⟨Z3Res.unknown, "canceled", []⟩).status
      = Except.ok LpStatusInfeasible ∧
    LpStatusInfeasible ≠ LpStatusNotSolved ∧
    LpStatusInfeasible ≠ LpStatusUndefined := by
  refine ⟨by decide, by decide, by decide⟩

/-- Claim C1 as amended. For every completed solve transaction the returned
status is exactly the table applied to the raw outcome: for CP-SAT,
`FEASIBLE`/`OPTIMAL` map to Optimal, `INFEASIBLE` to Infeasible, and
`MODEL_INVALID`/`UNKNOWN` to Undefined; for Z3, a `sat` outcome maps to
Optimal and an outcome without a model maps to NotSolved when the
unknown-reason is `"timeout"` and to Infeasible otherwise (so a non-timeout
`unknown` maps to Infeasible rather than NotSolved/Undefined). -/
theorem C1_amended :
    (∀ (oracle : CpOracle) (st st1 : CpState) (s : Int),
        cpsatActualSolve oracle st = (st1, Except.ok s) →
        s = amendedStatusCpsat oracle.raw) ∧
    (∀ (oracle : Z3Oracle) (st st1 : Z3State) (s : Int),
        z3ActualSolve oracle st = (st1, Except.ok s) →
        s = amendedStatusZ3 oracle.res oracle.reason) := by
  constructor
  · intro o st st1 s h
    rw [cpsatActualSolve_ok_status o st st1 s h]
    cases o.raw <;> rfl
  · intro o st st1 s h
    exact z3ActualSolve_ok_status o st st1 s h

/-- Witness for `C1_amended`: both hypotheses hold on the concrete example
transaction (CP-SAT raw `OPTIMAL`, Z3 `sat`), and the conclusion evaluates
as stated. -/
theorem C1_amended_witness :
    LpStatusOptimal = amendedStatusCpsat CpRaw.OPTIMAL ∧
    LpStatusOptimal = amendedStatusZ3 Z3Res.sat "" := by
  constructor
  · exact C1_amended.1 ⟨CpRaw.OPTIMAL, [("x", 0)]⟩ exCpSt
      (cpsatActualSolve ⟨CpRaw.OPTIMAL, [("x", 0)]⟩ exCpSt).1 LpStatusOptimal
      (by decide)
  · exact C1_amended.2 ⟨Z3Res.sat, "", [("x", 0)]⟩ exZ3St
      (z3ActualSolve ⟨Z3Res.sat, "", [("x", 0)]⟩ exZ3St).1 LpStatusOptimal
      (by decide)

/-! ### Claim C2 — value writing iff Optimal (code_bug) -/

/-- Claim C2, code-bug evaluation. The claim (and the spec) require that
values are written if and only if the mapped status is Optimal. In
`CPSAT_PY.findSolutionValues` the `statusMap` table maps the raw
`FEASIBLE` outcome to `LpStatusOptimal`, but the value-copying loop runs
only when the raw outcome is `OPTIMAL`. Hence on a solve whose raw outcome
is `FEASIBLE` (e.g. a time-limited search that found a solution), the
transaction returns Optimal while every variable's `varValue` is left
unwritten — stale values under an Optimal status, contradicting the
mapper's own status table. Evaluated here on a one-variable model. -/
theorem C2_code_bug :
    (cpsatActualSolve ⟨CpRaw.FEASIBLE, [("x", 1)]⟩ exCpSt).2
      = Except.ok LpStatusOptimal ∧
    ((cpsatActualSolve ⟨CpRaw.FEASIBLE, [("x", 1)]⟩ exCpSt).1.data.vars.map
      LpVariable.varValue) = [none] := by
  refine ⟨by decide, by decide⟩

/-! ### Claim C3 — objective setting (corrected) -/

/-- Model identical to `exData` except that its objective is empty. -/
def exDataNoObj : LpData := ⟨[exX], [], [], LpMinimize⟩

/-- Claim C3, counterexample. The claim states that for every model the
builder sets a native objective exactly when the objective's non-dummy
variable set is non-empty. The Z3 builder (`Z3_PY.buildSolverModel`) never
reads `lp.objective` or `lp.sense` at all: its entire output (the attached
native model and the error channel) is identical for a model whose
objective is `min x` and for the same model with an empty objective. Were
the claim true, the former build would have to set a native objective and
the latter not, so the two native models would differ. -/
theorem C3_counterexample :
    (z3BuildSolverModel ⟨exData, none, none, none⟩).1.solverModel
      = (z3BuildSolverModel ⟨exDataNoObj, none, none, none⟩).1.solverModel ∧
    (z3BuildSolverModel ⟨exData, none, none, none⟩).2
      = (z3BuildSolverModel ⟨exDataNoObj, none, none, none⟩).2 ∧
    isSatProblem exData = false ∧ isSatProblem exDataNoObj = true := by
  refine ⟨by decide, by decide, by decide, by decide⟩

/-! ### Claim C4 — absent bounds (corrected) -/

/-- Claim C4, counterexample. The claim states that for a variable with an
absent bound the builder succeeds and maps the absent bound to the
backend's representation of unboundedness. In fact both builders pass the
absent bound (`None`) straight to the native API, which rejects it: the
build fails instead of succeeding, for CP-SAT and for Z3 alike, on a model
whose single integer variable has no lower bound. -/
theorem C4_counterexample :
    (cpsatBuildSolverModel
      ⟨⟨[exOpenVar], [], [("y", 1)], LpMinimize⟩, none, none, none, none⟩).2.isSome ∧
    (z3BuildSolverModel
      ⟨⟨[exOpenVar], [], [("y", 1)], LpMinimize⟩, none, none, none⟩).2.isSome := by
  refine ⟨by decide, by decide⟩

/-! ### Claim C8 — build failure leaves the model untouched (corrected) -/

/-- Model whose build fails: an integer variable followed by a non-dummy
continuous variable. -/
def exC8Data : LpData := ⟨[exX, exContVar], [], [("x", 1)], LpMinimize⟩

/-- Variable of a category neither backend supports. -/
def exBadCatVar : LpVariable := ⟨"w", "Binary", some 0, some 1, none, true⟩

/-- Model whose Z3 build fails: an integer variable followed by a variable
of an unsupported category. -/
def exC8DataZ3 : LpData := ⟨[exX, exBadCatVar], [], [("x", 1)], LpMinimize⟩

/-- Claim C8, counterexample. The claim states that on a failing build the
model is left exactly as before the call, with no other state left behind
on it. In fact `CPSAT_PY.buildSolverModel` assigns `lp.solverModel` and
`lp.modelVars` before the variable loop, so when the loop rejects the
continuous variable the partially-built native model (already containing
the integer variable `x`) and the partial `modelVars` dictionary remain
attached to the model object. The Z3 builder leaves its partial
`lp.solverModel` (already holding `x` and its bound constraints) behind in
the same way when it rejects a variable of an unsupported category. -/
theorem C8_counterexample :
    (cpsatBuildSolverModel ⟨exC8Data, none, none, none, none⟩).2.isSome ∧
    (cpsatBuildSolverModel ⟨exC8Data, none, none, none, none⟩).1.solverModel
      = some ⟨[("x", 0, 5)], [], none⟩ ∧
    (cpsatBuildSolverModel ⟨exC8Data, none, none, none, none⟩).1.modelVars
      = some [("x", "x")] ∧
    (z3BuildSolverModel ⟨exC8DataZ3, none, none, none⟩).2.isSome ∧
    (z3BuildSolverModel ⟨exC8DataZ3, none, none, none⟩).1.solverModel
      = some ⟨[Z3Constraint.lower "x" 0, Z3Constraint.upper "x" 5],
              [("x", Z3Var.intVar "x")], none, none, none, none⟩ := by
  refine ⟨by decide, by decide, by decide, by decide, by decide⟩

/-! ### Claim C9 — native state not retained (corrected) -/

/-- Claim C9, counterexample. The claim states that the NativeModel and the
SolveOutcome are not retained after the solve transaction ends. In fact,
after a successfully completed CP-SAT transaction the native model, the
solver object and the raw outcome remain attached to the model object
(`lp.solverModel`, `lp.cpSatSolver`, `lp.solverStatus`), and after a Z3
transaction `lp.solverModel` (holding the solved native model) remains
attached as well. -/
theorem C9_counterexample :
    (cpsatActualSolve ⟨CpRaw.OPTIMAL, [("x", 0)]⟩ exCpSt).2
      = Except.ok LpStatusOptimal ∧
    (cpsatActualSolve ⟨CpRaw.OPTIMAL, [("x", 0)]⟩ exCpSt).1.solverModel.isSome ∧
    (cpsatActualSolve ⟨CpRaw.OPTIMAL, [("x", 0)]⟩ exCpSt).1.solverStatus.isSome ∧
    (cpsatActualSolve ⟨CpRaw.OPTIMAL, [("x", 0)]⟩ exCpSt).1.cpSatSolver.isSome ∧
    (z3ActualSolve ⟨Z3Res.sat, "", [("x", 0)]⟩ exZ3St).2
      = Except.ok LpStatusOptimal ∧
    (z3ActualSolve ⟨Z3Res.sat, "", [("x", 0)]⟩ exZ3St).1.solverModel.isSome := by
  refine ⟨by decide, by decide, by decide, by decide, by decide, by decide⟩

/-! ### Claim C7 — flag clearing and constraint/objective frame (confirmed) -/

/-- Claim C7. For every solve transaction that reaches the mapping stage and
returns a status (successful or not), both backends clear every variable's
`modified` flag and every constraint's change marker, and the mapping
mutates nothing else on the Constraint or Objective entities: the
constraints' data content (`terms`, `constant`, `sense`), the objective
items and the optimisation sense are exactly as before the call. -/
theorem C7_flag_clearing :
    (∀ (oracle : CpOracle) (st st1 : CpState) (s : Int),
        cpsatActualSolve oracle st = (st1, Except.ok s) →
        (∀ v ∈ st1.data.vars, v.modified = false) ∧
        (∀ c ∈ st1.data.constraints, c.modifier = false) ∧
        st1.data.constraints.map LpConstraint.core
          = st.data.constraints.map LpConstraint.core ∧
        st1.data.objective = st.data.objective ∧
        st1.data.sense = st.data.sense) ∧
    (∀ (oracle : Z3Oracle) (st st1 : Z3State) (s : Int),
        z3ActualSolve oracle st = (st1, Except.ok s) →
        (∀ v ∈ st1.data.vars, v.modified = false) ∧
        (∀ c ∈ st1.data.constraints, c.modifier = false) ∧
        st1.data.constraints.map LpConstraint.core
          = st.data.constraints.map LpConstraint.core ∧
        st1.data.objective = st.data.objective ∧
        st1.data.sense = st.data.sense) := by
  constructor
  · intro o st st1 s h
    unfold cpsatActualSolve at h
    split at h
    · simp at h
    · rename_i stb hb
      split at h
      · simp at h
      · rename_i st3 s' hf
        have hframe := cpsatFind_frame (cpsatCallSolver o stb)
        rw [hf] at hframe
        have hbdata : stb.data = st.data := by
          have h1 := congrArg (fun p => p.1.data) hb
          simpa [cpsatBuildSolverModel] using h1.symm
        have hcdata : (cpsatCallSolver o stb).data = st.data := by
          simpa [cpsatCallSolver] using hbdata
        injection h with h1 h2
        subst h1
        refine ⟨?_, ?_, ?_, ?_, ?_⟩
        · intro v hv
          rcases List.mem_map.1 hv with ⟨w, _, rfl⟩
          rfl
        · intro c hc
          rcases List.mem_map.1 hc with ⟨c', _, rfl⟩
          rfl
        · show (st3.data.constraints.map
              (fun c => { c with modifier := false })).map LpConstraint.core
            = st.data.constraints.map LpConstraint.core
          rw [List.map_map]
          rw [hframe.1, hcdata]
          rfl
        · show st3.data.objective = st.data.objective
          rw [hframe.2.1, hcdata]
        · show st3.data.sense = st.data.sense
          rw [hframe.2.2, hcdata]
  · intro o st st1 s h
    unfold z3ActualSolve at h
    split at h
    · simp at h
    · rename_i stb hb
      split at h
      · simp at h
      · rename_i st3 s' hf
        have hframe := z3Find_frame (z3CallSolver o stb)
        rw [hf] at hframe
        have hbdata : stb.data = st.data := by
          have h1 := congrArg (fun p => p.1.data) hb
          simpa [z3BuildSolverModel] using h1.symm
        have hcdata : (z3CallSolver o stb).data = st.data := by
          simpa [z3CallSolver] using hbdata
        injection h with h1 h2
        subst h1
        refine ⟨?_, ?_, ?_, ?_, ?_⟩
        · intro v hv
          rcases List.mem_map.1 hv with ⟨w, _, rfl⟩
          rfl
        · intro c hc
          rcases List.mem_map.1 hc with ⟨c', _, rfl⟩
          rfl
        · show (st3.data.constraints.map
              (fun c => { c with modifier := false })).map LpConstraint.core
            = st.data.constraints.map LpConstraint.core
          rw [List.map_map]
          rw [hframe.1, hcdata]
          rfl
        · show st3.data.objective = st.data.objective
          rw [hframe.2.1, hcdata]
        · show st3.data.sense = st.data.sense
          rw [hframe.2.2, hcdata]

/-- Witness for `C7_flag_clearing`: both hypotheses hold on the concrete
example transaction, and the binder-free frame conclusions evaluate as
stated. -/
theorem C7_flag_clearing_witness :
    (cpsatActualSolve ⟨CpRaw.OPTIMAL, [("x", 0)]⟩ exCpSt).1.data.objective
      = exCpSt.data.objective ∧
    (z3ActualSolve ⟨Z3Res.sat, "", [("x", 0)]⟩ exZ3St).1.data.sense
      = exZ3St.data.sense := by
  constructor
  · exact (C7_flag_clearing.1 ⟨CpRaw.OPTIMAL, [("x", 0)]⟩ exCpSt
      (cpsatActualSolve ⟨CpRaw.OPTIMAL, [("x", 0)]⟩ exCpSt).1 LpStatusOptimal
      (by decide)).2.2.2.1
  · exact (C7_flag_clearing.2 ⟨Z3Res.sat, "", [("x", 0)]⟩ exZ3St
      (z3ActualSolve ⟨Z3Res.sat, "", [("x", 0)]⟩ exZ3St).1 LpStatusOptimal
      (by decide)).2.2.2.2

/-! ### Claim C3 — objective setting (amended) -/

theorem cpsatAddVars_objective_none (d : LpData) (m1 : CpModel)
    (mv : List (String × String)) (e1 : Option String)
    (hav : cpsatAddVars d.vars ⟨[], [], none⟩ [] = (m1, mv, e1)) :
    m1.objective = none := by
  have h := cpsatAddVars_objective d.vars ⟨[], [], none⟩ []
  rw [hav] at h
  exact h

theorem cpsatBuildCore_objective (d : LpData)
    (h : (cpsatBuildCore d).2.2 = none) :
    ((cpsatBuildCore d).1.objective = none ↔ isSatProblem d = true) ∧
    (∀ (isMax : Bool) (e : List (Int × String)),
       (cpsatBuildCore d).1.objective = some (isMax, e) →
       (isMax = true ↔ d.sense = LpMaximize) ∧
       cpsatBuildLinearExpr (cpsatBuildCore d).2.1 d.objective
         = Except.ok e) := by
  rcases hav : cpsatAddVars d.vars ⟨[], [], none⟩ [] with ⟨m1, mv, e1⟩
  cases e1 with
  | some e =>
    have hbc : cpsatBuildCore d = (m1, mv, some e) := by
      simp [cpsatBuildCore, hav]
    rw [hbc] at h
    simp at h
  | none =>
    have hm1 : m1.objective = none := cpsatAddVars_objective_none d m1 mv none hav
    rcases hac : cpsatAddConstraints mv d.constraints m1 with ⟨m2, e2⟩
    cases e2 with
    | some e =>
      have hbc : cpsatBuildCore d = (m2, mv, some e) := by
        simp [cpsatBuildCore, hav, hac]
      rw [hbc] at h
      simp at h
    | none =>
      have hm2 : m2.objective = none := by
        have h2 := cpsatAddConstraints_objective d.constraints m1 mv
        rw [hac] at h2
        rw [h2, hm1]
      by_cases hsat : isSatProblem d
      · have hbc : cpsatBuildCore d = (m2, mv, none) := by
          simp [cpsatBuildCore, hav, hac, hsat]
        rw [hbc]
        constructor
        · simp [hm2, hsat]
        · intro isMax e hcontra
          rw [hm2] at hcontra
          cases hcontra
      · cases hble : cpsatBuildLinearExpr mv d.objective with
        | error err =>
          have hbc : cpsatBuildCore d = (m2, mv, some err) := by
            simp [cpsatBuildCore, hav, hac, hsat, hble]
          rw [hbc] at h
          simp at h
        | ok expr =>
          have hbc : cpsatBuildCore d
              = ({ m2 with objective := some (decide (d.sense = LpMaximize), expr) },
                 mv, none) := by
            simp [cpsatBuildCore, hav, hac, hsat, hble]
          rw [hbc]
          constructor
          · simp [hsat]
          · intro isMax e hobj
            simp only [Option.some.injEq, Prod.mk.injEq] at hobj
            refine ⟨?_, ?_⟩
            · rw [← hobj.1]
              exact decide_eq_true_iff
            · rw [← hobj.2]
              exact hble

/-- Claim C3 as amended. The CP-SAT builder sets a native objective exactly
when the objective's variable set excluding the dummy sentinel is non-empty
(`isSatProblem` is false), the direction is Maximize exactly when
`lp.sense == LpMaximize` (no implicit negation), and the objective
expression is the built linear expression of the objective items. The Z3
builder, by contrast, never sets a native objective: its output — attached
native model and error alike — does not depend on the Objective or the
declared direction at all. -/
theorem C3_amended :
    (∀ (st st1 : CpState), cpsatBuildSolverModel st = (st1, none) →
       ∃ m, st1.solverModel = some m ∧
         (m.objective = none ↔ isSatProblem st.data = true) ∧
         (∀ (isMax : Bool) (e : List (Int × String)),
            m.objective = some (isMax, e) →
            (isMax = true ↔ st.data.sense = LpMaximize) ∧
            ∃ mv, st1.modelVars = some mv ∧
              cpsatBuildLinearExpr mv st.data.objective = Except.ok e)) ∧
    (∀ (st : Z3State) (o : List (String × Int)) (sense : Int),
       ((z3BuildSolverModel { st with data :=
           { st.data with objective := o, sense := sense } }).1.solverModel
         = (z3BuildSolverModel st).1.solverModel) ∧
       ((z3BuildSolverModel { st with data :=
           { st.data with objective := o, sense := sense } }).2
         = (z3BuildSolverModel st).2)) := by
  constructor
  · intro st st1 h
    have hcore : (cpsatBuildCore st.data).2.2 = none := by
      have h2 := congrArg Prod.snd h
      simpa [cpsatBuildSolverModel] using h2
    have hst1 : st1 = { st with
        solverModel := some (cpsatBuildCore st.data).1,
        modelVars := some (cpsatBuildCore st.data).2.1 } := by
      have h1 := congrArg Prod.fst h
      simpa [cpsatBuildSolverModel] using h1.symm
    subst hst1
    rcases cpsatBuildCore_objective st.data hcore with ⟨hiff, hsome⟩
    refine ⟨(cpsatBuildCore st.data).1, rfl, hiff, ?_⟩
    intro isMax e hobj
    rcases hsome isMax e hobj with ⟨hdir, hexpr⟩
    exact ⟨hdir, (cpsatBuildCore st.data).2.1, rfl, hexpr⟩
  · intro st o sense
    have hcore : z3BuildCore st.timeLimit st.logPath
        { st.data with objective := o, sense := sense }
      = z3BuildCore st.timeLimit st.logPath st.data := rfl
    constructor
    · simp [z3BuildSolverModel, hcore]
    · simp [z3BuildSolverModel, hcore]

/-- Witness for `C3_amended`: the build of the concrete example model (whose
objective is `min x`) succeeds, and by the theorem its native objective is
not `none`; the Z3 build of the same model coincides with the build of the
model with an emptied objective. -/
theorem C3_amended_witness :
    ¬((cpsatBuildSolverModel exCpSt).1.solverModel.map CpModel.objective
        = some none) ∧
    (z3BuildSolverModel ⟨exDataNoObj, none, none, none⟩).1.solverModel
      = (z3BuildSolverModel exZ3St).1.solverModel := by
  constructor
  · intro hcontra
    rcases C3_amended.1 exCpSt (cpsatBuildSolverModel exCpSt).1 (by decide)
      with ⟨m, hm, hiff, _⟩
    rw [hm] at hcontra
    have hobjnone : m.objective = none := by
      simpa using hcontra
    have hsat := hiff.1 hobjnone
    exact absurd hsat (by decide)
  · exact (C3_amended.2 exZ3St [] LpMinimize).1

/-! ### Claim C4 — absent bounds (amended) -/

theorem cpsatAddConstraints_intVars (cs : List LpConstraint) (m : CpModel)
    (mv : List (String × String)) :
    ((cpsatAddConstraints mv cs m).1).intVars = m.intVars := by
  induction cs generalizing m with
  | nil => rfl
  | cons c rest ih =>
    simp only [cpsatAddConstraints]
    split <;> simp [ih]

theorem cpsatBuildCore_intVars (d : LpData) :
    (cpsatBuildCore d).1.intVars
      = (cpsatAddVars d.vars ⟨[], [], none⟩ []).1.intVars := by
  rcases hav : cpsatAddVars d.vars ⟨[], [], none⟩ [] with ⟨m1, mv, e1⟩
  cases e1 with
  | some e => simp [cpsatBuildCore, hav]
  | none =>
    rcases hac : cpsatAddConstraints mv d.constraints m1 with ⟨m2, e2⟩
    have hi : m2.intVars = m1.intVars := by
      have h2 := cpsatAddConstraints_intVars d.constraints m1 mv
      rw [hac] at h2
      exact h2
    cases e2 with
    | some e => simp [cpsatBuildCore, hav, hac, hi]
    | none =>
      by_cases hsat : isSatProblem d
      · simp [cpsatBuildCore, hav, hac, hsat, hi]
      · cases hble : cpsatBuildLinearExpr mv d.objective with
        | error err => simp [cpsatBuildCore, hav, hac, hsat, hble, hi]
        | ok expr => simp [cpsatBuildCore, hav, hac, hsat, hble, hi]

theorem z3BuildCore_err_of_vars (tl : Option Int) (lg : Option String)
    (d : LpData)
    (h : (z3AddVars d.vars (Z3Model.init tl lg)).2.isSome) :
    (z3BuildCore tl lg d).2.isSome := by
  rcases hav : z3AddVars d.vars (Z3Model.init tl lg) with ⟨m1, e1⟩
  cases e1 with
  | none => rw [hav] at h; simp at h
  | some e =>
    have hbc : z3BuildCore tl lg d = (m1, some e) := by
      simp [z3BuildCore, hav]
    simp [hbc]

theorem z3BuildCore_bound_mem (tl : Option Int) (lg : Option String)
    (d : LpData) (c : Z3Constraint)
    (hshape : ∀ lhs rel rhs, c ≠ Z3Constraint.cmp lhs rel rhs)
    (h : c ∈ ((z3BuildCore tl lg d).1).constraints) :
    c ∈ ((z3AddVars d.vars (Z3Model.init tl lg)).1).constraints := by
  rcases hav : z3AddVars d.vars (Z3Model.init tl lg) with ⟨m1, e1⟩
  cases e1 with
  | some e =>
    have hbc : z3BuildCore tl lg d = (m1, some e) := by
      simp [z3BuildCore, hav]
    rw [hbc] at h
    exact h
  | none =>
    have hbc : z3BuildCore tl lg d
        = z3AddConstraints m1.varTable d.constraints m1 := by
      simp [z3BuildCore, hav]
    rw [hbc] at h
    exact z3AddConstraints_bound_mem _ _ _ _ hshape h

/-- Claim C4 as amended. An absent (open) bound is never clamped to zero,
but neither is it mapped to an unboundedness representation: both builders
pass the bound unchanged to the native API, which rejects the Python `None`,
so the build fails. First two parts: the build fails whenever an integer
variable (CP-SAT) or any variable (Z3) has an absent bound. Last two parts:
every bound that does reach the native model is the verbatim bound of a
model variable (no clamping, no substitution). -/
theorem C4_amended :
    (∀ (st : CpState) (v : LpVariable), v ∈ st.data.vars →
       v.cat = LpInteger → (v.lowBound = none ∨ v.upBound = none) →
       (cpsatBuildSolverModel st).2.isSome) ∧
    (∀ (st : Z3State) (v : LpVariable), v ∈ st.data.vars →
       (v.lowBound = none ∨ v.upBound = none) →
       (z3BuildSolverModel st).2.isSome) ∧
    (∀ (st : CpState) (n : String) (lb ub : Int) (m : CpModel),
       ((cpsatBuildSolverModel st).1).solverModel = some m →
       (n, lb, ub) ∈ m.intVars →
       ∃ v, v ∈ st.data.vars ∧ v.name = n ∧
         v.lowBound = some lb ∧ v.upBound = some ub) ∧
    (∀ (st : Z3State) (n : String) (b : Int) (m : Z3Model),
       ((z3BuildSolverModel st).1).solverModel = some m →
       (Z3Constraint.lower n b ∈ m.constraints →
         ∃ v, v ∈ st.data.vars ∧ v.name = n ∧ v.lowBound = some b) ∧
       (Z3Constraint.upper n b ∈ m.constraints →
         ∃ v, v ∈ st.data.vars ∧ v.name = n ∧ v.upBound = some b)) := by
  refine ⟨?_, ?_, ?_, ?_⟩
  · intro st v hv hcat hb
    exact cpsatBuild_fail_of_vars_fail st
      (cpsatAddVars_fail_int st.data.vars ⟨[], [], none⟩ [] v hv hcat hb)
  · intro st v hv hb
    have h := z3AddVars_fail_noBound st.data.vars
      (Z3Model.init st.timeLimit st.logPath) v hv hb
    have hcore := z3BuildCore_err_of_vars st.timeLimit st.logPath st.data h
    simpa [z3BuildSolverModel] using hcore
  · intro st n lb ub m hsm hmem
    have hm : m = (cpsatBuildCore st.data).1 := by
      have : some ((cpsatBuildCore st.data).1) = some m := by
        simpa [cpsatBuildSolverModel] using hsm
      exact (Option.some.inj this).symm
    rw [hm, cpsatBuildCore_intVars] at hmem
    rcases cpsatAddVars_intVars_mem st.data.vars ⟨[], [], none⟩ []
      (n, lb, ub) hmem with h0 | ⟨v, hv, _, hn, hlb, hub⟩
    · cases h0
    · exact ⟨v, hv, hn, hlb, hub⟩
  · intro st n b m hsm
    have hm : m = (z3BuildCore st.timeLimit st.logPath st.data).1 := by
      have : some ((z3BuildCore st.timeLimit st.logPath st.data).1)
          = some m := by
        simpa [z3BuildSolverModel] using hsm
      exact (Option.some.inj this).symm
    constructor
    · intro hmem
      rw [hm] at hmem
      have h1 := z3BuildCore_bound_mem st.timeLimit st.logPath st.data
        (Z3Constraint.lower n b) (fun lhs rel rhs h => by cases h) hmem
      rcases z3AddVars_constraints_mem st.data.vars
        (Z3Model.init st.timeLimit st.logPath) _ h1 with h0 | ⟨v, hv, hc⟩
      · cases h0
      · rcases hc with ⟨b2, hb2, heq⟩ | ⟨b2, hb2, heq⟩
        · rcases Z3Constraint.lower.inj heq with ⟨hn2, hb3⟩
          exact ⟨v, hv, hn2.symm, by rw [hb2, hb3]⟩
        · cases heq
    · intro hmem
      rw [hm] at hmem
      have h1 := z3BuildCore_bound_mem st.timeLimit st.logPath st.data
        (Z3Constraint.upper n b) (fun lhs rel rhs h => by cases h) hmem
      rcases z3AddVars_constraints_mem st.data.vars
        (Z3Model.init st.timeLimit st.logPath) _ h1 with h0 | ⟨v, hv, hc⟩
      · cases h0
      · rcases hc with ⟨b2, hb2, heq⟩ | ⟨b2, hb2, heq⟩
        · cases heq
        · rcases Z3Constraint.upper.inj heq with ⟨hn2, hb3⟩
          exact ⟨v, hv, hn2.symm, by rw [hb2, hb3]⟩

/-- Witness for `C4_amended`: all four parts applied at concrete models —
the open-bound model makes both builds fail, and the bounds found in the
native models built from the example model trace back verbatim to `x`'s
bounds. -/
theorem C4_amended_witness :
    (cpsatBuildSolverModel
      ⟨⟨[exOpenVar], [], [("y", 1)], LpMinimize⟩,
       none, none, none, none⟩).2.isSome ∧
    (z3BuildSolverModel
      ⟨⟨[exOpenVar], [], [("y", 1)], LpMinimize⟩, none, none, none⟩).2.isSome ∧
    (∃ v, v ∈ exCpSt.data.vars ∧ v.name = "x" ∧
       v.lowBound = some 0 ∧ v.upBound = some 5) ∧
    (∃ v, v ∈ exZ3St.data.vars ∧ v.name = "x" ∧ v.lowBound = some 0) := by
  refine ⟨?_, ?_, ?_, ?_⟩
  · exact C4_amended.1
      ⟨⟨[exOpenVar], [], [("y", 1)], LpMinimize⟩, none, none, none, none⟩
      exOpenVar (by decide) (by decide) (Or.inl (by decide))
  · exact C4_amended.2.1
      ⟨⟨[exOpenVar], [], [("y", 1)], LpMinimize⟩, none, none, none⟩
      exOpenVar (by decide) (Or.inl (by decide))
  · exact C4_amended.2.2.1 exCpSt "x" 0 5
      ⟨[("x", 0, 5)], [], some (false, [(1, "x")])⟩ (by decide) (by decide)
  · exact (C4_amended.2.2.2 exZ3St "x" 0
      ⟨[Z3Constraint.lower "x" 0, Z3Constraint.upper "x" 5],
       [("x", Z3Var.intVar "x")], none, none, none, none⟩ (by decide)).1
      (by decide)

/-! ### Claim C8 — build failure frame (amended) -/

/-- Claim C8 as amended. The build stage never touches the Generic Model
View: for every input state — whether the build succeeds or fails — the
generic data (variables with their `solvedValue`s and change flags,
constraints, objective, sense) is returned exactly as it was. However, the
build is not free of other effects on the model object: it always leaves
the (possibly partial) native model — and, for CP-SAT, the `modelVars`
dictionary — attached to it, because these attributes are assigned before
the translation loops run. -/
theorem C8_amended :
    (∀ st : CpState,
       ((cpsatBuildSolverModel st).1).data = st.data ∧
       ((cpsatBuildSolverModel st).1).solverModel.isSome ∧
       ((cpsatBuildSolverModel st).1).modelVars.isSome) ∧
    (∀ st : Z3State,
       ((z3BuildSolverModel st).1).data = st.data ∧
       ((z3BuildSolverModel st).1).solverModel.isSome) := by
  constructor
  · intro st
    exact ⟨rfl, rfl, rfl⟩
  · intro st
    exact ⟨rfl, rfl⟩

/-! ### Claim C9 — native state freshness (amended) -/

/-- Claim C9 as amended. The NativeModel and SolveOutcome are created fresh
at the start of each solve transaction: the build unconditionally replaces
any previously attached native model and dictionary, and the invoker
replaces the solver and outcome attributes, so the observable behaviour of
a solve — the resulting generic data and the returned status — does not
depend in any way on the native state retained from an earlier transaction
(for Z3 the entire resulting state coincides). The retained attributes are
however not cleared at the end of the transaction (see the
counterexample). -/
theorem C9_amended :
    (∀ (d : LpData) (o : CpOracle) (a : Option CpModel)
        (b : Option (List (String × String)))
        (c : Option (List (String × Int))) (r : Option CpRaw),
       ((cpsatActualSolve o ⟨d, a, b, c, r⟩).1.data
          = (cpsatActualSolve o ⟨d, none, none, none, none⟩).1.data) ∧
       ((cpsatActualSolve o ⟨d, a, b, c, r⟩).2
          = (cpsatActualSolve o ⟨d, none, none, none, none⟩).2)) ∧
    (∀ (d : LpData) (tl : Option Int) (lg : Option String)
        (o : Z3Oracle) (a : Option Z3Model),
       z3ActualSolve o ⟨d, tl, lg, a⟩ = z3ActualSolve o ⟨d, tl, lg, none⟩) := by
  constructor
  · intro d o a b c r
    unfold cpsatActualSolve
    rcases hbc : cpsatBuildCore d with ⟨m, mv, e⟩
    have hb1 : cpsatBuildSolverModel ⟨d, a, b, c, r⟩
        = (⟨d, some m, some mv, c, r⟩, e) := by
      simp [cpsatBuildSolverModel, hbc]
    have hb2 : cpsatBuildSolverModel ⟨d, none, none, none, none⟩
        = (⟨d, some m, some mv, none, none⟩, e) := by
      simp [cpsatBuildSolverModel, hbc]
    rw [hb1, hb2]
    cases e with
    | some err => exact ⟨rfl, rfl⟩
    | none => exact ⟨rfl, rfl⟩
  · intro d tl lg o a
    rfl

/-! ### Claim C5 — constraint translation (confirmed) -/

theorem cpsatBuildLinearExpr_eval (mv : List (String × String))
    (ts : List (String × Int)) (es : List (Int × String))
    (hid : ∀ p ∈ ts, alookup p.1 mv = some p.1)
    (h : cpsatBuildLinearExpr mv ts = Except.ok es) (val : String → Int) :
    evalLin val es = evalTerms val ts := by
  induction ts generalizing es with
  | nil =>
    simp only [cpsatBuildLinearExpr] at h
    rw [← Except.ok.inj h]
    rfl
  | cons p rest ih =>
    rcases p with ⟨n, coeff⟩
    have hn : alookup n mv = some n := hid (n, coeff) (List.mem_cons_self ..)
    simp only [cpsatBuildLinearExpr, hn] at h
    cases hrest : cpsatBuildLinearExpr mv rest with
    | error e => rw [hrest] at h; cases h
    | ok es2 =>
      rw [hrest] at h
      rw [← Except.ok.inj h]
      have heq := ih es2 (fun q hq => hid q (List.mem_cons_of_mem _ hq)) hrest
      simp only [evalLin, evalTerms, List.map_cons, List.sum_cons] at heq ⊢
      rw [heq]

theorem z3BuildExpr_eval (vt : List (String × Z3Var))
    (ts : List (String × Int)) (es : List (Int × String))
    (hid : ∀ p ∈ ts, ∃ zv, alookup p.1 vt = some zv ∧ zv.name = p.1)
    (h : z3BuildExpr vt ts = Except.ok es) (val : String → Int) :
    evalLin val es = evalTerms val ts := by
  induction ts generalizing es with
  | nil =>
    simp only [z3BuildExpr] at h
    rw [← Except.ok.inj h]
    rfl
  | cons p rest ih =>
    rcases p with ⟨n, coeff⟩
    rcases hid (n, coeff) (List.mem_cons_self ..) with ⟨zv, hzv, hname⟩
    simp only [z3BuildExpr, hzv] at h
    cases hrest : z3BuildExpr vt rest with
    | error e => rw [hrest] at h; cases h
    | ok es2 =>
      rw [hrest] at h
      rw [← Except.ok.inj h]
      have heq := ih es2 (fun q hq => hid q (List.mem_cons_of_mem _ hq)) hrest
      simp only [evalLin, evalTerms, List.map_cons, List.sum_cons, hname]
        at heq ⊢
      rw [heq]

/-- Claim C5. For every generic constraint with sense in
{Equal, LessOrEqual, GreaterOrEqual} and every valuation: the native
constraint built by either backend holds at the valuation if and only if
the spec-side semantics `Σ(coeff·var) + constant {=,≤,≥} 0` of the generic
constraint holds there. The translation builds `Σ(coeff·nativeVar)` over
the referenced variables and compares it against `-constant` with the
comparison operator of the sense, so the sign convention is preserved
exactly. -/
theorem C5_constraint_translation :
    ∀ (c : LpConstraint) (val : String → Int),
      (c.sense = LpConstraintEQ ∨ c.sense = LpConstraintLE ∨
        c.sense = LpConstraintGE) →
      ((∀ (mv : List (String × String)) (nc : CpConstraint),
          (∀ p ∈ c.terms, alookup p.1 mv = some p.1) →
          cpsatBuildConstraint mv c = Except.ok nc →
          (CpConstraint.holdsAt nc val ↔ c.specHolds val)) ∧
       (∀ (vt : List (String × Z3Var)) (zc : Z3Constraint),
          (∀ p ∈ c.terms, ∃ zv, alookup p.1 vt = some zv ∧
             zv.name = p.1) →
          z3BuildConstraint vt c = Except.ok zc →
          (Z3Constraint.holdsAt zc val ↔ c.specHolds val))) := by
  intro c val hsense
  constructor
  · intro mv nc hid hb
    cases hble : cpsatBuildLinearExpr mv c.terms with
    | error e =>
      have hbc : cpsatBuildConstraint mv c = Except.error e := by
        simp [cpsatBuildConstraint, hble]
      rw [hbc] at hb
      cases hb
    | ok lhs =>
      have heval := cpsatBuildLinearExpr_eval mv c.terms lhs hid hble val
      rcases hsense with h1 | h2 | h3
      · have hbc : cpsatBuildConstraint mv c
            = Except.ok (⟨lhs, LinRel.eq, -c.constant⟩ : CpConstraint) := by
          simp [cpsatBuildConstraint, hble, h1]
        rw [hbc] at hb
        rw [← Except.ok.inj hb]
        simp only [CpConstraint.holdsAt, LpConstraint.specHolds, if_pos h1,
          heval]
        omega
      · have h1 : ¬ c.sense = LpConstraintEQ := by rw [h2]; decide
        have hbc : cpsatBuildConstraint mv c
            = Except.ok (⟨lhs, LinRel.le, -c.constant⟩ : CpConstraint) := by
          simp [cpsatBuildConstraint, hble, if_neg h1, if_pos h2]
        rw [hbc] at hb
        rw [← Except.ok.inj hb]
        simp only [CpConstraint.holdsAt, LpConstraint.specHolds, if_neg h1,
          if_pos h2, heval]
        omega
      · have h1 : ¬ c.sense = LpConstraintEQ := by rw [h3]; decide
        have h2 : ¬ c.sense = LpConstraintLE := by rw [h3]; decide
        have hbc : cpsatBuildConstraint mv c
            = Except.ok (⟨lhs, LinRel.ge, -c.constant⟩ : CpConstraint) := by
          simp [cpsatBuildConstraint, hble, if_neg h1, if_neg h2]
        rw [hbc] at hb
        rw [← Except.ok.inj hb]
        simp only [CpConstraint.holdsAt, LpConstraint.specHolds, if_neg h1,
          if_neg h2, heval]
        omega
  · intro vt zc hid hb
    cases hble : z3BuildExpr vt c.terms with
    | error e =>
      have hbc : z3BuildConstraint vt c = Except.error e := by
        simp [z3BuildConstraint, hble]
      rw [hbc] at hb
      cases hb
    | ok lhs =>
      have heval := z3BuildExpr_eval vt c.terms lhs hid hble val
      rcases hsense with h1 | h2 | h3
      · have hbc : z3BuildConstraint vt c
            = Except.ok (Z3Constraint.cmp lhs LinRel.eq (-c.constant)) := by
          simp [z3BuildConstraint, hble, h1]
        rw [hbc] at hb
        rw [← Except.ok.inj hb]
        simp only [Z3Constraint.holdsAt, LpConstraint.specHolds, if_pos h1,
          heval]
        omega
      · have h1 : ¬ c.sense = LpConstraintEQ := by rw [h2]; decide
        have hbc : z3BuildConstraint vt c
            = Except.ok (Z3Constraint.cmp lhs LinRel.le (-c.constant)) := by
          simp [z3BuildConstraint, hble, if_neg h1, if_pos h2]
        rw [hbc] at hb
        rw [← Except.ok.inj hb]
        simp only [Z3Constraint.holdsAt, LpConstraint.specHolds, if_neg h1,
          if_pos h2, heval]
        omega
      · have h1 : ¬ c.sense = LpConstraintEQ := by rw [h3]; decide
        have h2 : ¬ c.sense = LpConstraintLE := by rw [h3]; decide
        have hbc : z3BuildConstraint vt c
            = Except.ok (Z3Constraint.cmp lhs LinRel.ge (-c.constant)) := by
          simp [z3BuildConstraint, hble, if_neg h1, if_neg h2]
        rw [hbc] at hb
        rw [← Except.ok.inj hb]
        simp only [Z3Constraint.holdsAt, LpConstraint.specHolds, if_neg h1,
          if_neg h2, heval]
        omega

/-- Witness for `C5_constraint_translation`: the constraint
`2x + (-3) ≤ 0` (i.e. `2x ≤ 3`), translated by the CP-SAT backend into
`2x ≤ 3`, evaluated at the valuation `x = 1`. -/
theorem C5_constraint_translation_witness :
    CpConstraint.holdsAt ⟨[(2, "x")], LinRel.le, 3⟩ (fun _ => 1) ↔
      LpConstraint.specHolds ⟨[("x", 2)], -3, LpConstraintLE, true⟩
        (fun _ => 1) := by
  exact (C5_constraint_translation ⟨[("x", 2)], -3, LpConstraintLE, true⟩
    (fun _ => 1) (Or.inr (Or.inl rfl))).1 [("x", "x")]
    ⟨[(2, "x")], LinRel.le, 3⟩ (by decide) (by decide)

/-! ### Claim C6 — continuous variables on CP-SAT (confirmed) -/

theorem cpsatBuildCore_modelVars (d : LpData) :
    (cpsatBuildCore d).2.1 = (cpsatAddVars d.vars ⟨[], [], none⟩ []).2.1 := by
  rcases hav : cpsatAddVars d.vars ⟨[], [], none⟩ [] with ⟨m1, mv, e1⟩
  cases e1 with
  | some e => simp [cpsatBuildCore, hav]
  | none =>
    rcases hac : cpsatAddConstraints mv d.constraints m1 with ⟨m2, e2⟩
    cases e2 with
    | some e => simp [cpsatBuildCore, hav, hac]
    | none =>
      by_cases hsat : isSatProblem d
      · simp [cpsatBuildCore, hav, hac, hsat]
      · cases hble : cpsatBuildLinearExpr mv d.objective with
        | error err => simp [cpsatBuildCore, hav, hac, hsat, hble]
        | ok expr => simp [cpsatBuildCore, hav, hac, hsat, hble]

/-- Claim C6. The CP-SAT build rejects every model containing a non-dummy
continuous variable (parts 1 and 2: the build fails, and — on a model whose
other variables are well-formed — with exactly the unsupported-feature
`ValueError` message of the source). The reserved dummy sentinel is ignored
for value purposes: on a successful build no `modelVars` entry and no
native integer variable is named `__dummy` (parts 3 and 4, under the model
invariant that no integer variable usurps the reserved name), and the
value-writing loop of the mapper never touches a variable named `__dummy`
(part 5: dummy-named variables pass through verbatim). -/
theorem C6_continuous_rejection :
    (∀ (st : CpState) (v : LpVariable), v ∈ st.data.vars →
       v.cat = LpContinuous → v.name ≠ "__dummy" →
       (cpsatBuildSolverModel st).2.isSome) ∧
    (∀ (st : CpState) (v : LpVariable),
       (∀ u ∈ st.data.vars,
         (u.cat = LpInteger ∧ u.lowBound.isSome ∧ u.upBound.isSome) ∨
           u.cat = LpContinuous) →
       v ∈ st.data.vars → v.cat = LpContinuous → v.name ≠ "__dummy" →
       (cpsatBuildSolverModel st).2
         = some "CPSAT_PY: Continuous variables are not supported") ∧
    (∀ (st st1 : CpState) (mv : List (String × String)),
       cpsatBuildSolverModel st = (st1, none) →
       (∀ u ∈ st.data.vars, u.name = "__dummy" → u.cat ≠ LpInteger) →
       st1.modelVars = some mv → ∀ p ∈ mv, p.1 ≠ "__dummy") ∧
    (∀ (st st1 : CpState) (m : CpModel),
       cpsatBuildSolverModel st = (st1, none) →
       (∀ u ∈ st.data.vars, u.name = "__dummy" → u.cat ≠ LpInteger) →
       st1.solverModel = some m → ∀ t ∈ m.intVars, t.1 ≠ "__dummy") ∧
    (∀ (assign : List (String × Int)) (mv : List (String × String))
        (vs : List LpVariable),
       ((cpsatWriteValues assign mv vs).1).filter
           (fun v => v.name == "__dummy")
         = vs.filter (fun v => v.name == "__dummy")) := by
  refine ⟨?_, ?_, ?_, ?_, ?_⟩
  · intro st v hv hcat hn
    exact cpsatBuild_fail_of_vars_fail st
      (cpsatAddVars_fail_cont st.data.vars ⟨[], [], none⟩ [] v hv hcat hn)
  · intro st v hall hv hcat hn
    exact cpsatBuildCore_err_of_vars st.data _
      (cpsatAddVars_cont_error st.data.vars ⟨[], [], none⟩ [] hall v hv
        hcat hn)
  · intro st st1 mv hb hnodummy hmv p hp
    have h2 : st1.modelVars = some (cpsatBuildCore st.data).2.1 := by
      have h1 : (cpsatBuildSolverModel st).1 = st1 := by rw [hb]
      rw [← h1]
      rfl
    have hmv2 : mv = (cpsatBuildCore st.data).2.1 :=
      Option.some.inj (hmv.symm.trans h2)
    rw [hmv2, cpsatBuildCore_modelVars] at hp
    rcases cpsatAddVars_modelVars_mem st.data.vars ⟨[], [], none⟩ [] p hp
      with h0 | ⟨v, hv, hint, rfl⟩
    · cases h0
    · intro hdum
      exact (hnodummy v hv hdum) hint
  · intro st st1 m hb hnodummy hsm t ht
    have h2 : st1.solverModel = some (cpsatBuildCore st.data).1 := by
      have h1 : (cpsatBuildSolverModel st).1 = st1 := by rw [hb]
      rw [← h1]
      rfl
    have hm2 : m = (cpsatBuildCore st.data).1 :=
      Option.some.inj (hsm.symm.trans h2)
    rw [hm2, cpsatBuildCore_intVars] at ht
    rcases cpsatAddVars_intVars_mem st.data.vars ⟨[], [], none⟩ [] t ht
      with h0 | ⟨v, hv, hint, hname, _, _⟩
    · cases h0
    · intro hdum
      exact (hnodummy v hv (hname.trans hdum)) hint
  · intro assign mv vs
    exact cpsatWriteValues_dummy assign mv vs

/-- Witness for `C6_continuous_rejection`: the model with a non-dummy
continuous variable is rejected with exactly the unsupported-feature
message, and on the successfully built model containing the continuous
dummy sentinel no `modelVars` entry is named `__dummy`. -/
theorem C6_continuous_rejection_witness :
    (cpsatBuildSolverModel ⟨exC8Data, none, none, none, none⟩).2
      = some "CPSAT_PY: Continuous variables are not supported" ∧
    (("x", "x") : String × String).1 ≠ "__dummy" := by
  constructor
  · exact C6_continuous_rejection.2.1 ⟨exC8Data, none, none, none, none⟩
      exContVar (by decide) (by decide) (by decide) (by decide)
  · exact C6_continuous_rejection.2.2.1
      ⟨⟨[exX, exDummyVar], [], [("x", 1)], LpMinimize⟩, none, none, none, none⟩
      (cpsatBuildSolverModel
        ⟨⟨[exX, exDummyVar], [], [("x", 1)], LpMinimize⟩,
         none, none, none, none⟩).1
      [("x", "x")] (by decide) (by decide) (by decide) ("x", "x") (by decide)

/-! ### Claim C10 — Z3 variable kinds (confirmed) -/

theorem z3BuildCore_vars_ok (tl : Option Int) (lg : Option String)
    (d : LpData) (h : (z3BuildCore tl lg d).2 = none) :
    (z3AddVars d.vars (Z3Model.init tl lg)).2 = none := by
  rcases hav : z3AddVars d.vars (Z3Model.init tl lg) with ⟨m1, e1⟩
  cases e1 with
  | none => rfl
  | some e =>
    have hbc : z3BuildCore tl lg d = (m1, some e) := by
      simp [z3BuildCore, hav]
    rw [hbc] at h
    simp at h

theorem z3BuildCore_eq_of_vars_ok (tl : Option Int) (lg : Option String)
    (d : LpData) (m1 : Z3Model)
    (hav : z3AddVars d.vars (Z3Model.init tl lg) = (m1, none)) :
    z3BuildCore tl lg d = z3AddConstraints m1.varTable d.constraints m1 := by
  simp [z3BuildCore, hav]

theorem z3Keys_of_refs (tl : Option Int) (lg : Option String) (d : LpData)
    (m1 : Z3Model)
    (hav : z3AddVars d.vars (Z3Model.init tl lg) = (m1, none))
    (p : String × Int) (u : LpVariable) (hu : u ∈ d.vars)
    (hname : u.name = p.1) :
    (alookup p.1 m1.varTable).isSome := by
  have hok := z3AddVars_ok d.vars (Z3Model.init tl lg)
    (by rw [hav]) u hu
  rw [hav] at hok
  rcases hok.1 with hint | hcont
  · have hmem := hok.2.2.2.1 hint
    rw [hname] at hmem
    exact alookup_isSome_of_mem _ _ _ hmem
  · have hmem := hok.2.2.2.2.1 hcont
    rw [hname] at hmem
    exact alookup_isSome_of_mem _ _ _ hmem

/-- Claim C10. Under the generic-model invariants (every bound present,
every constraint referencing only model variables), the Z3 build supports
both variable kinds at its public interface: the build succeeds exactly
when every variable's category is Integer or Continuous; on success every
Integer variable appears as a native `z3.Int` and every Continuous
variable — the dummy sentinel included, with no special treatment — as a
native `z3.Real` in the model's variable dictionary, with its bounds added
as two ordinary constraints; and on failure the error names the offending
unsupported category. -/
theorem C10_z3_variable_kinds :
    ∀ (st : Z3State),
      (∀ v ∈ st.data.vars, v.lowBound.isSome ∧ v.upBound.isSome) →
      (∀ c ∈ st.data.constraints, ∀ p ∈ c.terms,
         ∃ u, u ∈ st.data.vars ∧ u.name = p.1) →
      (((z3BuildSolverModel st).2 = none ↔
          ∀ v ∈ st.data.vars, v.cat = LpInteger ∨ v.cat = LpContinuous) ∧
       (∀ m, ((z3BuildSolverModel st).1).solverModel = some m →
          (z3BuildSolverModel st).2 = none →
          ∀ v ∈ st.data.vars,
            (v.cat = LpInteger →
              (v.name, Z3Var.intVar v.name) ∈ m.varTable) ∧
            (v.cat = LpContinuous →
              (v.name, Z3Var.realVar v.name) ∈ m.varTable) ∧
            (∀ b, v.lowBound = some b →
              Z3Constraint.lower v.name b ∈ m.constraints) ∧
            (∀ b, v.upBound = some b →
              Z3Constraint.upper v.name b ∈ m.constraints)) ∧
       (∀ e, (z3BuildSolverModel st).2 = some e →
          ∃ v, v ∈ st.data.vars ∧
            ¬(v.cat = LpInteger ∨ v.cat = LpContinuous) ∧
            e = "Z3: Variable type " ++ v.cat ++ " not supported")) := by
  intro st hbounds hrefs
  have hb2 : (z3BuildSolverModel st).2
      = (z3BuildCore st.timeLimit st.logPath st.data).2 := rfl
  refine ⟨⟨?_, ?_⟩, ?_, ?_⟩
  · intro h v hv
    rw [hb2] at h
    have hvarsok := z3BuildCore_vars_ok st.timeLimit st.logPath st.data h
    exact (z3AddVars_ok st.data.vars
      (Z3Model.init st.timeLimit st.logPath) hvarsok v hv).1
  · intro hcats
    rw [hb2]
    have hvarsok : (z3AddVars st.data.vars
        (Z3Model.init st.timeLimit st.logPath)).2 = none :=
      z3AddVars_ok_of st.data.vars (Z3Model.init st.timeLimit st.logPath)
        (fun v hv => ⟨hcats v hv, (hbounds v hv).1, (hbounds v hv).2⟩)
    rcases hav : z3AddVars st.data.vars
        (Z3Model.init st.timeLimit st.logPath) with ⟨m1, e1⟩
    rw [hav] at hvarsok
    rcases hvarsok with rfl
    rw [z3BuildCore_eq_of_vars_ok st.timeLimit st.logPath st.data m1 hav]
    exact z3AddConstraints_ok m1.varTable st.data.constraints m1
      (fun c hc p hp => by
        rcases hrefs c hc p hp with ⟨u, hu, hname⟩
        exact z3Keys_of_refs st.timeLimit st.logPath st.data m1 hav
          p u hu hname)
  · intro m hm hok v hv
    rw [hb2] at hok
    have hvarsok := z3BuildCore_vars_ok st.timeLimit st.logPath st.data hok
    rcases hav : z3AddVars st.data.vars
        (Z3Model.init st.timeLimit st.logPath) with ⟨m1, e1⟩
    rw [hav] at hvarsok
    rcases hvarsok with rfl
    have hmcore : m = (z3BuildCore st.timeLimit st.logPath st.data).1 := by
      have h2 : ((z3BuildSolverModel st).1).solverModel
          = some (z3BuildCore st.timeLimit st.logPath st.data).1 := rfl
      exact Option.some.inj (hm.symm.trans h2)
    rw [z3BuildCore_eq_of_vars_ok st.timeLimit st.logPath st.data m1 hav]
      at hmcore
    have hok2 := z3AddVars_ok st.data.vars
      (Z3Model.init st.timeLimit st.logPath) (by rw [hav]) v hv
    rw [hav] at hok2
    have hvt : m.varTable = m1.varTable := by
      rw [hmcore]
      exact z3AddConstraints_varTable m1.varTable st.data.constraints m1
    refine ⟨?_, ?_, ?_, ?_⟩
    · intro hint
      rw [hvt]
      exact hok2.2.2.2.1 hint
    · intro hcont
      rw [hvt]
      exact hok2.2.2.2.2.1 hcont
    · intro b hbeq
      rw [hmcore]
      exact z3AddConstraints_mono_constraints _ _ _ _
        (hok2.2.2.2.2.2.1 b hbeq)
    · intro b hbeq
      rw [hmcore]
      exact z3AddConstraints_mono_constraints _ _ _ _
        (hok2.2.2.2.2.2.2 b hbeq)
  · intro e he
    rw [hb2] at he
    rcases hav : z3AddVars st.data.vars
        (Z3Model.init st.timeLimit st.logPath) with ⟨m1, e1⟩
    cases e1 with
    | some e1' =>
      have hbc : z3BuildCore st.timeLimit st.logPath st.data
          = (m1, some e1') := by
        simp [z3BuildCore, hav]
      rw [hbc] at he
      have he2 : e1' = e := Option.some.inj he
      rcases z3AddVars_err st.data.vars
        (Z3Model.init st.timeLimit st.logPath)
        (fun v hv => hbounds v hv) e1' (by rw [hav]) with ⟨v, hv, hcat, hmsg⟩
      exact ⟨v, hv, hcat, by rw [← he2, hmsg]⟩
    | none =>
      exfalso
      rw [z3BuildCore_eq_of_vars_ok st.timeLimit st.logPath st.data m1 hav]
        at he
      have hcok := z3AddConstraints_ok m1.varTable st.data.constraints m1
        (fun c hc p hp => by
          rcases hrefs c hc p hp with ⟨u, hu, hname⟩
          exact z3Keys_of_refs st.timeLimit st.logPath st.data m1 hav
            p u hu hname)
      rw [hcok] at he
      cases he

/-- Witness for `C10_z3_variable_kinds`: the example model (one bounded
integer variable, no constraints) satisfies both invariants, and by the
theorem its Z3 build succeeds since the only category present is
Integer. -/
theorem C10_z3_variable_kinds_witness :
    (z3BuildSolverModel exZ3St).2 = none := by
  exact (C10_z3_variable_kinds exZ3St (by decide)
    (by simp [exZ3St, exData])).1.2 (by decide)
